import Mathlib

/-!
# Verification of the coverage tracer and its attribution engine

A shallow embedding, in Lean 4, of the core of this repository:

* `coverage/test_finder.py` — `TestFinder`, `TestFinderResult`, the caller
  attribution merge algebra (`merge`, `merge_into_dict`,
  `merge_callers_dicts`);
* `coverage/pytracer.py` — `PyTracer._trace`, the event-driven state machine
  that consumes `call`/`line`/`return`/`exception` events;
* `coverage/data.py` — `CoverageData.combine_parallel_data`,
  `CoverageData.add_callers_data`, `CoverageData._read_file`.

Python dictionaries whose values are `None` are modelled as `Finset`s of
their keys; dictionaries with meaningful values are modelled either as total
functions into `Option` (absent key ↦ `none`) or, where the code iterates
over a dictionary's items, as association lists.  Python exceptions raised by
the modelled code are rendered as `Option`/failure results (`none` = the
Python code raised).  Mutation is rendered by explicit state passing; the one
place where Python aliasing could be observed (a single `TestFinderResult`
object stored under several keys of `cur_file_callers_dict` in one `line`
event with a multi-line range) is never exercised by the runs studied here,
so value semantics below coincides with the Python heap behaviour on them.
-/

namespace Coverage

/-- A key of a per-file coverage dictionary: a plain line number in statement
mode, or an `(from_line, to_line)` arc pair in branch mode.  The Python code
keys one and the same dictionary with integers or pairs depending on
`self.arcs`. -/
inductive Key where
  | line (n : Int)
  | arc (a b : Int)
deriving DecidableEq, Repr

/-- Python truthiness of a dictionary key as tested by
`TestFinderResult.merge_into_dict` (`if not dict_key: raise ValueError`):
the integer `0` is falsy, every tuple is truthy. -/
def Key.truthy : Key → Bool
  | .line n => n ≠ 0
  | .arc _ _ => true

/-- `TestIdentifier` from `test_finder.py`: a namedtuple
`(filename, line_no, function_name)` identifying one test routine. -/
structure TestIdentifier where
  filename : String
  lineNo : Int
  functionName : String
deriving DecidableEq, Repr

/-- `TestLine`, the record stored in `PyTracer.callers_line`, built in the
`line` branch of `PyTracer._trace` as
`TestLine(filename=..., line_no=..., start_line=..., function_name=...)`.
Modelled from the spec: the class itself is imported by `pytracer.py` from
`coverage.test_finder` but its definition is not among the given sources;
the spec describes it as the record correlating the currently executing line
of a test with the line of the top of that test. -/
structure TestLine where
  filename : String
  lineNo : Int
  startLine : Int
  functionName : String
deriving DecidableEq, Repr

/-- The frame-info triple `{filename, line_no, function_name}`.
Modelled from the spec: `TestFinder.get_frame_info` is called by
`pytracer.py` but its definition is not among the given sources; the spec
specifies `frame_info(frame) -> {filename, line_no, function_name}` as an
O(1) extraction of exactly these three fields of the frame. -/
structure FrameInfo where
  filename : String
  lineNo : Int
  functionName : String
deriving DecidableEq, Repr

/-- The first positional argument of a function, as far as
`TestFinder._is_test_method` inspects it: its Python truthiness and whether
it is an `isinstance` of one of the configured test-case classes
(`TestCase`, `FunctionTestCase`). -/
structure FirstArg where
  truthy : Bool
  isTestCase : Bool
deriving DecidableEq, Repr

/-- The attributes of a Python frame read by the tracer and the test finder:
frame identity (`frame ==` is identity for frames), `f_back` identity,
`f_code` identity, `f_code.co_filename`, `f_code.co_firstlineno`, the code
name, and the first positional argument if any.  The varying `f_lineno` is
carried on each event instead. -/
structure Frame where
  fid : Nat
  back : Option Nat
  code : Nat
  filename : String
  firstlineno : Int
  funcName : String
  firstArg : Option FirstArg
deriving DecidableEq, Repr

end Coverage

namespace Coverage

/-! ## `test_finder.py`: `TestFinder` -/

/-- `TestFinder.get_frame_info`.  Modelled from the spec: the method is
called by `pytracer.py` but missing from the given sources; the spec fixes
it as cheap extraction of `{filename, line_no, function_name}`. -/
def get_frame_info (fr : Frame) (flineno : Int) : FrameInfo :=
  ⟨fr.filename, flineno, fr.funcName⟩

/-- `TestFinder._is_test_framework_method`: the frame's filename contains
`os.sep + "unittest" + os.sep`.  `sep` is the platform path separator. -/
def isTestFrameworkMethod (sep : String) (fi : FrameInfo) : Bool :=
  decide (List.IsInfix (sep ++ "unittest" ++ sep).toList fi.filename.toList)

/-- `TestFinder._is_test_method`: true if the function name is exactly
`'test'` or contains `'test_'` (`obj_name.find('test_') > -1`); otherwise,
if the function has a first positional argument that is truthy and an
instance of one of the configured test-case classes, and the frame does not
look like a test-framework internal frame, it is a test. -/
def isTestMethod (sep : String) (fr : Frame) (fi : FrameInfo) : Bool :=
  if fi.functionName = "test" ∨ List.IsInfix "test_".toList fi.functionName.toList then
    true
  else
    match fr.firstArg with
    | none => false
    | some fa => fa.truthy && fa.isTestCase && !(isTestFrameworkMethod sep fi)

/-! ## `test_finder.py`: `TestFinderResult` -/

/-- `TestFinderResult`: a `line_id` (an identifier of the line under test;
the tracer always passes `None`) and a set of found tests.  The element type
is a parameter because the tracer stores `TestLine`s where
`find_tests_in_frame` stores `TestIdentifier`s. -/
structure TestFinderResult (α : Type) where
  lineId : Option String
  testMethods : Finset α
deriving DecidableEq

/-- `TestFinderResult.has_tests`. -/
def TestFinderResult.hasTests {α : Type} (t : TestFinderResult α) : Bool :=
  t.testMethods.Nonempty

/-- `TestFinderResult.merge`: raises `ValueError` (here: `none`) when the
two `line_id`s differ; otherwise unions the `test_methods` sets, keeping
`self.line_id`. -/
def TestFinderResult.mergeR {α : Type} [DecidableEq α] (t r : TestFinderResult α) :
    Option (TestFinderResult α) :=
  if t.lineId = r.lineId then some ⟨t.lineId, t.testMethods ∪ r.testMethods⟩ else none

/-- A per-file callers dictionary (`cur_file_callers_dict` in the tracer, an
inner value of `CoverageData.callers`): keys to `TestFinderResult`s, absent
key ↦ `none`. -/
def CallersDict (α : Type) : Type := Key → Option (TestFinderResult α)

/-- The empty callers dictionary. -/
def CallersDict.empty (α : Type) : CallersDict α := fun _ => none

/-- Point update of a callers dictionary. -/
def CallersDict.set {α : Type} (d : CallersDict α) (k : Key) (v : Option (TestFinderResult α)) :
    CallersDict α :=
  fun k' => if k' = k then v else d k'

/-- `TestFinderResult.merge_into_dict`.  Raises (`none`) when the key is
falsy or when the in-place `past_result.merge(result)` raises.  When the key
is already bound, the bound object is merged in place, so the dictionary
ends up holding the union in every case (the subsequent
`lines_dict[dict_key] = past_result` rebinds the same object); when the key
is unbound, the fresh result is stored only if it has tests, so an empty
result leaves the key absent. -/
def mergeIntoDict {α : Type} [DecidableEq α] (d : CallersDict α) (k : Key)
    (r : TestFinderResult α) : Option (CallersDict α) :=
  if ¬ k.truthy then none
  else
    match d k with
    | some past =>
      match past.mergeR r with
      | none => none
      | some m => some (d.set k (some m))
    | none =>
      if r.hasTests then some (d.set k (some r)) else some d

/-- The callers dictionaries reachable from the empty dictionary by
successful `merge_into_dict` operations. -/
inductive ReachableCallers : CallersDict TestIdentifier → Prop where
  | empty : ReachableCallers (CallersDict.empty TestIdentifier)
  | step {d : CallersDict TestIdentifier} {k : Key} {r : TestFinderResult TestIdentifier}
      {d' : CallersDict TestIdentifier} :
      ReachableCallers d → mergeIntoDict d k r = some d' → ReachableCallers d'

/-! ## `pytracer.py`: the event tracer

The tracer's per-file dictionaries-of-`None` (`self.data[tracename]`) are
modelled as `Finset Key` valued functions (a filename not yet seen maps to
`∅`, which coincides behaviourally with the lazy
`if tracename not in self.data: self.data[tracename] = {}` creation).  The
references `self.cur_file_dict` / `self.cur_file_callers_dict` are modelled
by the *name* of the file they point into (`none` = the Python `None`).
`self.plugin_data` is not modelled: no studied behaviour reads it. -/

/-- A file tracer plugin capability, as far as the tracer consults it.  Its
behaviour (`dynamic_source_file_name`, `line_number_range`) is looked up in
the `Config` by `id` so that states keep decidable equality. -/
structure FileTracer where
  id : Nat
  pluginName : String
deriving DecidableEq, Repr

/-- The trace decision returned by `self.should_trace(filename, frame)`
(`disp`): whether to trace, the canonical source filename, and the optional
plugin file tracer. -/
structure Disp where
  trace : Bool
  sourceFilename : String
  fileTracer : Option FileTracer
deriving DecidableEq, Repr

/-- The tracer's environment: the attributes set on `PyTracer` from the
collector (`self.arcs`, `self.should_record_callers`, `self.should_trace`)
and the behaviour of plugin capabilities.  `should_trace` is modelled as a
pure function of the filename; the `should_trace_cache` memoisation is then
behaviourally transparent and is not carried in the state.
`dynSourceFileName ftid = some h` models
`disp.file_tracer.dynamic_source_file_name()` returning a (truthy) function
`h`; `h tracename fid = none` models that function returning a falsy name.
`lineNumberRange ftid fr flineno` models
`disp.file_tracer.line_number_range(frame)`.  `checkInclude` models
`self.check_include` (not among the given sources; modelled from the spec:
the inclusion filtering collaborator is a boolean-valued classifier of
filenames).  `sep` is the platform path separator used by the test finder. -/
structure Config where
  arcs : Bool
  shouldRecordCallers : Bool
  shouldTrace : String → Disp
  dynSourceFileName : Nat → Option (String → Nat → Option String)
  lineNumberRange : Nat → Frame → Int → Int × Int
  checkInclude : String → Bool
  sep : String

/-- One saved entry of `self.data_stack`: the tuple
`(file_tracer, cur_file_dict, cur_file_callers_dict, last_line)`. -/
abbrev StackEntry : Type := Option FileTracer × Option String × Option String × Int

/-- The mutable state of a `PyTracer`.  `pluginAttr` is the write-only
attribute `self.plugin` assigned in the `return` branch of `_trace`.
`callersStack` holds `(f_code, entry frame info)` pairs, head = top of
stack; `callersLine` is keyed by such pairs. -/
@[ext]
structure TracerState where
  data : String → Finset Key
  callersData : String → CallersDict TestLine
  fileTracer : Option FileTracer
  curFile : Option String
  curCallersFile : Option String
  lastLine : Int
  dataStack : List StackEntry
  pluginAttr : Option FileTracer
  callersStack : List (Nat × FrameInfo)
  callersLine : (Nat × FrameInfo) → Option TestLine
  lastExcBack : Option Nat
  lastExcFirstlineno : Int
  stopped : Bool

/-- The initial state of a freshly constructed tracer whose `data` and
`callers_data` were set to empty dictionaries by the collector. -/
def TracerState.init : TracerState where
  data := fun _ => ∅
  callersData := fun _ => CallersDict.empty TestLine
  fileTracer := none
  curFile := none
  curCallersFile := none
  lastLine := 0
  dataStack := []
  pluginAttr := none
  callersStack := []
  callersLine := fun _ => none
  lastExcBack := none
  lastExcFirstlineno := 0
  stopped := false

/-- The events delivered to `PyTracer._trace`.  `call` and `line` carry the
frame's current `f_lineno`. -/
inductive Ev where
  | call (fr : Frame) (flineno : Int)
  | line (fr : Frame) (flineno : Int)
  | ret (fr : Frame)
  | exc (fr : Frame)
deriving DecidableEq, Repr

/-- The frame an event is reported in. -/
def Ev.frame : Ev → Frame
  | .call fr _ => fr
  | .line fr _ => fr
  | .ret fr => fr
  | .exc fr => fr

/-- `PyTracer._in_top_test`: the current frame's code object is the code
object at the top of `callers_stack`. -/
def inTopTest (callersStack : List (Nat × FrameInfo)) (fr : Frame) : Bool :=
  match callersStack with
  | [] => false
  | (code, _) :: _ => fr.code = code

/-- `PyTracer.get_callers_mapped_stack`: the set of `callers_line` records
of the entries of `callers_stack` (entries with no record are skipped). -/
def getCallersMappedStack (s : TracerState) : Finset TestLine :=
  (s.callersStack.filterMap s.callersLine).toFinset

/-- Point update of the per-file data map. -/
def updData (m : String → Finset Key) (fl : String) (f : Finset Key → Finset Key) :
    String → Finset Key :=
  fun fl' => if fl' = fl then f (m fl') else m fl'

/-- Point update of the per-file callers map. -/
def updCallers (m : String → CallersDict TestLine) (fl : String) (d : CallersDict TestLine) :
    String → CallersDict TestLine :=
  fun fl' => if fl' = fl then d else m fl'

/-- Python truthiness of the `tracename` local of the `call` branch
(`if tracename:`): a non-`None`, non-empty string. -/
def tracenameTruthy : Option String → Bool
  | some t => t ≠ ""
  | none => false

/-- The `if self.last_exc_back:` prologue of `_trace`: if a previous
`exception` event recorded a missed return and the current event is observed
in that exception's parent frame, record the synthesized terminal arc (only
in branch mode and only when the current per-file dictionary is truthy,
i.e. non-`None` and non-empty) and pop the data stack, restoring all four
components of the saved context.  Popping an empty stack raises (`none`).
`last_exc_back` is cleared on any event. -/
def tracePrologue (cfg : Config) (s : TracerState) (fr : Frame) : Option TracerState :=
  match s.lastExcBack with
  | none => some s
  | some b =>
    if fr.fid = b then
      let d :=
        if cfg.arcs then
          match s.curFile with
          | some fl =>
            if (s.data fl).Nonempty then
              updData s.data fl (insert (Key.arc s.lastLine (-s.lastExcFirstlineno)))
            else s.data
          | none => s.data
        else s.data
      match s.dataStack with
      | [] => none
      | (ft, cf, ccf, ll) :: rest =>
        some { s with
          data := d, fileTracer := ft, curFile := cf, curCallersFile := ccf,
          lastLine := ll, dataStack := rest, lastExcBack := none }
    else some { s with lastExcBack := none }

/-- The `tracename` computed by the `call` branch of `_trace`: the
disposition's source filename, possibly rewritten by the plugin's
`dynamic_source_file_name` function and then subjected to `check_include`. -/
def callTracename (cfg : Config) (disp : Disp) (fr : Frame) : Option String :=
  if disp.trace then
    match disp.fileTracer with
    | some ft =>
      match cfg.dynSourceFileName ft.id with
      | some dynFunc =>
        match dynFunc disp.sourceFilename fr.fid with
        | some tn2 => if cfg.checkInclude tn2 then some tn2 else none
        | none => none
      | none => some disp.sourceFilename
    | none => some disp.sourceFilename
  else none

/-- The `call` branch of `_trace`: push the current context, decide whether
the new frame's file is tracked, install the new context (empty when not
tracked), push onto `callers_stack` if the new frame is a test method, and
set `last_line := -1`. -/
def handleCall (cfg : Config) (s : TracerState) (fr : Frame) (flineno : Int) : TracerState :=
  let disp := cfg.shouldTrace fr.filename
  let tracename := callTracename cfg disp fr
  let tracked := tracenameTruthy tracename
  let tn := tracename.getD ""
  let newCallersStack :=
    if tracked ∧ cfg.shouldRecordCallers then
      let fi := get_frame_info fr flineno
      if isTestMethod cfg.sep fr fi then (fr.code, fi) :: s.callersStack
      else s.callersStack
    else s.callersStack
  { s with
    dataStack := (s.fileTracer, s.curFile, s.curCallersFile, s.lastLine) :: s.dataStack,
    fileTracer := if tracked then disp.fileTracer else none,
    curFile := if tracked then some tn else none,
    curCallersFile := if tracked then some tn else none,
    callersStack := newCallersStack,
    lastLine := -1 }

/-- The resolved `(lineno_from, lineno_to)` of a `line` event: via the
plugin's `line_number_range` when a file tracer is installed, else
`(frame.f_lineno, frame.f_lineno)`. -/
def resolveRange (cfg : Config) (s : TracerState) (fr : Frame) (flineno : Int) : Int × Int :=
  match s.fileTracer with
  | some ft => cfg.lineNumberRange ft.id fr flineno
  | none => (flineno, flineno)

/-- The inclusive integer range `range(a, b+1)` of the statement-mode
recording loop. -/
def intRange (a b : Int) : List Int :=
  (List.range (b + 1 - a).toNat).map (fun i : Nat => a + (i : Int))

/-- The attribution bookkeeping of the `line` branch: when callers are
recorded and the test stack is non-empty, update the current line record of
the top test (if we are executing inside it) and gather the currently
executing lines of the test stack into a fresh `TestFinderResult` with
`line_id = None`. -/
def lineWhichTests (cfg : Config) (s : TracerState) (fr : Frame) (flineno : Int) :
    TracerState × Option (TestFinderResult TestLine) :=
  if cfg.shouldRecordCallers ∧ s.callersStack ≠ [] then
    let s' :=
      if inTopTest s.callersStack fr then
        match s.callersStack with
        | [] => s
        | (tco, topInfo) :: _ =>
          let fi := get_frame_info fr flineno
          let tl : TestLine := ⟨fi.filename, fi.lineNo, topInfo.lineNo, fi.functionName⟩
          { s with callersLine := fun p =>
              if p = (tco, topInfo) then some tl else s.callersLine p }
      else s
    (s', some ⟨none, getCallersMappedStack s'⟩)
  else (s, none)

/-- Merge `which_tests` into the current per-file callers dictionary at the
given key.  `cur_file_callers_dict` being `None` here would be a Python
`AttributeError` (`none`). -/
def mergeAtKey (s : TracerState) (k : Key) :
    Option (TestFinderResult TestLine) → Option TracerState
  | none => some s
  | some w =>
    match s.curCallersFile with
    | none => none
    | some cfl =>
      match mergeIntoDict (s.callersData cfl) k w with
      | none => none
      | some d' => some { s with callersData := updCallers s.callersData cfl d' }

/-- The statement-mode recording loop
`for lineno in range(lineno_from, lineno_to+1)` over one tracked file. -/
def recordLines (fl : String) (w : Option (TestFinderResult TestLine)) :
    TracerState → List Int → Option TracerState
  | s, [] => some s
  | s, n :: ns =>
    let s₁ := { s with data := updData s.data fl (insert (Key.line n)) }
    match mergeAtKey s₁ (Key.line n) w with
    | none => none
    | some s₂ => recordLines fl w s₂ ns

/-- The `line` branch of `_trace`: resolve the line range; a `-1` from-line
records nothing and leaves the state unchanged; otherwise, if the current
frame is tracked, compute the attribution and record the arc
`(last_line, lineno_from)` (branch mode) or every line of the range
(statement mode), merging the attribution at the same keys; finally set
`last_line := lineno_to`. -/
def handleLine (cfg : Config) (s : TracerState) (fr : Frame) (flineno : Int) :
    Option TracerState :=
  let r := resolveRange cfg s fr flineno
  if r.1 = -1 then some s
  else
    let rec' :=
      match s.curFile with
      | none => some s
      | some fl =>
        let (s₁, w) := lineWhichTests cfg s fr flineno
        if cfg.arcs then
          let k := Key.arc s₁.lastLine r.1
          let s₂ := { s₁ with data := updData s₁.data fl (insert k) }
          mergeAtKey s₂ k w
        else
          recordLines fl w s₁ (intRange r.1 r.2)
    match rec' with
    | none => none
    | some s' => some { s' with lastLine := r.2 }

/-- The test-stack part of the `return` branch of `_trace`: when returning
from the top test (`self._in_top_test(frame)`), pop `callers_stack` and
delete (`try`/`except KeyError`) the popped entry's current-line record. -/
def popCallers (cfg : Config) (s : TracerState) (fr : Frame) : TracerState :=
  if cfg.shouldRecordCallers ∧ inTopTest s.callersStack fr then
    match s.callersStack with
    | [] => s
    | t :: restC =>
      { s with
        callersStack := restC,
        callersLine := fun p => if p = t then none else s.callersLine p }
  else s

/-- The `return` branch of `_trace`: record the terminal arc
`(last_line, -co_firstlineno)` in branch mode when the current per-file
dictionary is truthy; pop the data stack — the popped `file_tracer`
component is assigned to `self.plugin` (sic), `self.file_tracer` is left
unchanged — then run the test-stack pop on the updated state. -/
def handleRet (cfg : Config) (s : TracerState) (fr : Frame) : Option TracerState :=
  let d :=
    if cfg.arcs then
      match s.curFile with
      | some fl =>
        if (s.data fl).Nonempty then
          updData s.data fl (insert (Key.arc s.lastLine (-fr.firstlineno)))
        else s.data
      | none => s.data
    else s.data
  match s.dataStack with
  | [] => none
  | (ft, cf, ccf, ll) :: rest =>
    some (popCallers cfg
      { s with
        data := d, pluginAttr := ft, curFile := cf, curCallersFile := ccf,
        lastLine := ll, dataStack := rest } fr)

/-- The `exception` branch of `_trace`: remember the raising frame's parent
and its function's first line; pop nothing yet. -/
def handleExc (s : TracerState) (fr : Frame) : TracerState :=
  { s with lastExcBack := fr.back, lastExcFirstlineno := fr.firstlineno }

/-- `PyTracer._trace` on one event: if stopped, do nothing; otherwise run
the missed-return prologue, then dispatch on the event kind.  `none` means
the Python code raised. -/
def traceStep (cfg : Config) (s : TracerState) (ev : Ev) : Option TracerState :=
  if s.stopped then some s
  else
    match tracePrologue cfg s ev.frame with
    | none => none
    | some s₁ =>
      match ev with
      | .call fr flineno => some (handleCall cfg s₁ fr flineno)
      | .line fr flineno => handleLine cfg s₁ fr flineno
      | .ret fr => handleRet cfg s₁ fr
      | .exc fr => some (handleExc s₁ fr)

/-- Run the tracer over a list of events. -/
def runEvents (cfg : Config) : TracerState → List Ev → Option TracerState
  | s, [] => some s
  | s, ev :: evs =>
    match traceStep cfg s ev with
    | none => none
    | some s' => runEvents cfg s' evs

/-! ## Concrete scenarios used by the theorems below -/

/-- A sample configuration: every file is traced under its own name; the
file `"b.py"` is handled by a plugin file tracer (id 7) whose
`line_number_range` shifts lines by 100 (so that uses of a stale plugin are
visible in the recorded data); all other files are plain. -/
def sampleCfg (arcs shouldRecordCallers : Bool) : Config where
  arcs := arcs
  shouldRecordCallers := shouldRecordCallers
  shouldTrace := fun fn =>
    if fn = "b.py" then ⟨true, fn, some ⟨7, "plug"⟩⟩ else ⟨true, fn, none⟩
  dynSourceFileName := fun _ => none
  lineNumberRange := fun _ _ n => (n + 100, n + 100)
  checkInclude := fun _ => true
  sep := "/"

/-- A plain function frame `f` in `"a.py"`, first line 9. -/
def frameF : Frame := ⟨1, none, 10, "a.py", 9, "f", none⟩

/-- A callee frame `g` living in the plugin-traced file `"b.py"`, first
line 20, called from `frameF`. -/
def frameGB : Frame := ⟨2, some 1, 20, "b.py", 20, "g", none⟩

/-- A callee frame `g` in the same file `"a.py"` as `frameF`. -/
def frameGA : Frame := ⟨2, some 1, 20, "a.py", 20, "g", none⟩

/-- A callee frame `g` in its own plain file `"c.py"`. -/
def frameGC : Frame := ⟨2, some 1, 20, "c.py", 20, "g", none⟩

/-- The entry frame info of the recursive test function `test_r`. -/
def testInfo : FrameInfo := ⟨"t.py", 5, "test_r"⟩

/-- An outer activation of the test function `test_r` (code object 100) in
`"t.py"`, first line 5. -/
def frameT1 : Frame := ⟨1, none, 100, "t.py", 5, "test_r", none⟩

/-- A second, recursive activation of the same test function: a different
frame (`fid` 2) sharing the code object 100. -/
def frameT2 : Frame := ⟨2, some 1, 100, "t.py", 5, "test_r", none⟩

/-- A frame whose synthetic filename marks it as an interactively-evaluated
documentation example (a doctest), with a function name that is not
test-like and no first positional argument. -/
def docFrame : Frame := ⟨1, none, 50, "<doctest mymod.func[0]>", 1, "innerfn", none⟩

/-- A tracer state currently tracking file `"a.py"` at `last_line = 3`,
as after a `call` into `"a.py"` and a `line` event at line 3. -/
def c4State : TracerState :=
  { TracerState.init with curFile := some "a.py", curCallersFile := some "a.py", lastLine := 3 }

/-- A sample test identifier. -/
def sampleTid : TestIdentifier := ⟨"t.py", 4, "test_a"⟩

/-- A sample nonempty `TestFinderResult` as produced by the test finder. -/
def sampleTFR : TestFinderResult TestIdentifier := ⟨none, {sampleTid}⟩

/-- The callers dictionary obtained by merging `sampleTFR` at key `line 3`
into the empty dictionary. -/
def sampleCallersDict : CallersDict TestIdentifier :=
  (CallersDict.empty TestIdentifier).set (Key.line 3) (some sampleTFR)

/-! ## C3 — well-formed event sequences

A grammar of well-formed frame bodies, formalising the claim's hypothesis:
inside a frame `f`, events are `line` events of `f` and complete
sub-executions, where a sub-execution of a callee `g` either ends with `g`'s
`return` event, or ends with an `exception` event in `g` whose parent is `f`
and whose correction is observed at the immediately following event in the
enclosing frame `f` (a `line` event of `f`, as in the spec's own
exception-without-return scenario). -/

/-- Well-formed bodies of events executed while frame `f` is current. -/
inductive Body : Frame → List Ev → Prop where
  | nil (f : Frame) : Body f []
  | line (f : Frame) (n : Int) {es : List Ev} :
      Body f es → Body f (.line f n :: es)
  | callRet (f g : Frame) (n : Int) {es₁ es₂ : List Ev} :
      Body g es₁ → Body f es₂ →
      Body f (.call g n :: es₁ ++ .ret g :: es₂)
  | callExcLine (f g : Frame) (n m : Int) (hback : g.back = some f.fid)
      {es₁ es₂ : List Ev} :
      Body g es₁ → Body f es₂ →
      Body f (.call g n :: es₁ ++ .exc g :: .line f m :: es₂)

/-! ## `data.py`: the merge/combine layer

`CoverageData.combine_parallel_data` reads each parallel data file and folds
it into `self.lines` / `self.arcs` / `self.callers`, mapping filenames
through the `PathAliases` normalizer.  One input dataset is modelled as the
association lists `_read_file` produces; the accumulated `CoverageData` maps
are modelled as total functions (absent file ↦ `∅`, matching `setdefault`).
A `ValueError` raised by `TestFinderResult.merge` (diverging `line_id`s)
aborts the combine; this is modelled as an overall `none` (the partially
mutated `self` of the aborted Python call is not modelled, as no result is
yielded then). -/

/-- The per-file line/arc maps of a `CoverageData`, as a total function. -/
abbrev LinesFn : Type := String → Finset Key

/-- The `callers` map of a `CoverageData`, as a total function. -/
abbrev CallersFn : Type := String → CallersDict TestIdentifier

/-- The `lines` (or `arcs`) component of one dataset as read from a file:
per filename, the list of recorded keys. -/
abbrev LinesOfFiles : Type := List (String × List Key)

/-- The `callers` component of one dataset as read from a file. -/
abbrev CallersOfFiles : Type := List (String × List (Key × TestFinderResult TestIdentifier))

/-- One parallel-run dataset as returned by `_read_file`. -/
structure Dataset where
  lines : LinesOfFiles
  arcs : LinesOfFiles
  callers : CallersOfFiles
deriving DecidableEq

/-- The accumulated `(lines, arcs, callers)` state of a `CoverageData`. -/
structure CombState where
  lines : LinesFn
  arcs : LinesFn
  callers : CallersFn

/-- A fresh `CoverageData`'s empty maps. -/
def CombState.empty : CombState :=
  ⟨fun _ => ∅, fun _ => ∅, fun _ => CallersDict.empty TestIdentifier⟩

/-- `self.lines.setdefault(aliases.map(filename), {}).update(file_data)` for
one `(filename, file_data)` item of an input dataset. -/
def applyLinesEntry (al : String → String) (L : LinesFn) (p : String × List Key) : LinesFn :=
  fun f => if f = al p.1 then L f ∪ p.2.toFinset else L f

/-- The `for filename, file_data in iitems(new_lines)` loop of
`combine_parallel_data`. -/
def applyLines (al : String → String) (L : LinesFn) (d : LinesOfFiles) : LinesFn :=
  d.foldl (applyLinesEntry al) L

/-- The body of the loop of `TestFinder.merge_callers_dicts` for one
`(line_or_arc, other_test_result)` item against file `f`: a missing entry is
bound to the other result; an existing entry is merged in place (which
raises, i.e. `none`, on diverging `line_id`s). -/
def mergeCallersEntry (m : CallersFn) (f : String)
    (e : Key × TestFinderResult TestIdentifier) : Option CallersFn :=
  match m f e.1 with
  | none => some (fun f' => if f' = f then (m f).set e.1 (some e.2) else m f')
  | some t =>
    match t.mergeR e.2 with
    | none => none
    | some u => some (fun f' => if f' = f then (m f).set e.1 (some u) else m f')

/-- `TestFinder.merge_callers_dicts(self.callers.setdefault(filename, {}),
file_data)` for one file of an input dataset. -/
def applyCallersFile (acc : Option CallersFn) (f : String)
    (es : List (Key × TestFinderResult TestIdentifier)) : Option CallersFn :=
  es.foldl (fun a e =>
    match a with
    | none => none
    | some m => mergeCallersEntry m f e) acc

/-- The `for filename, file_data in iitems(new_callers)` loop of
`combine_parallel_data`. -/
def applyCallers (al : String → String) (acc : Option CallersFn) (d : CallersOfFiles) :
    Option CallersFn :=
  d.foldl (fun a p => applyCallersFile a (al p.1) p.2) acc

/-- Folding one dataset into the accumulated state: the three per-component
loops of `combine_parallel_data`'s body; a raise while merging callers
aborts the combine (`none` is absorbing). -/
def combineStep (al : String → String) (a : Option CombState) (d : Dataset) :
    Option CombState :=
  match a with
  | none => none
  | some s =>
    match applyCallers al (some s.callers) d.callers with
    | none => none
    | some c => some ⟨applyLines al s.lines d.lines, applyLines al s.arcs d.arcs, c⟩

/-- `CoverageData.combine_parallel_data` over a list of already-read
datasets. -/
def combineParallelData (al : String → String) (s₀ : CombState) (ds : List Dataset) :
    Option CombState :=
  ds.foldl (combineStep al) (some s₀)

/-- The value that `merge_callers_dicts` leaves at a key after processing
one item, as a function of the previously stored entry: a missing entry is
replaced by the incoming result; an existing one keeps its `line_id` and
unions the `test_methods` sets, raising (`none`) on diverging `line_id`s. -/
def entryResultVal (tOpt : Option (TestFinderResult TestIdentifier))
    (r : TestFinderResult TestIdentifier) : Option (TestFinderResult TestIdentifier) :=
  match tOpt with
  | none => some r
  | some t =>
    if t.lineId = r.lineId then some ⟨t.lineId, t.testMethods ∪ r.testMethods⟩ else none

/-- Rebinding one key of one file of a callers map. -/
def updCallersAt (m : CallersFn) (f : String) (k : Key) (u : TestFinderResult TestIdentifier) :
    CallersFn :=
  fun f' => if f' = f then (m f).set k (some u) else m f'

/-- One flattened item of the callers component of a dataset: the
(alias-mapped) filename with one key/result pair. -/
abbrev CEntry : Type := String × Key × TestFinderResult TestIdentifier

/-- Processing one flattened callers item, with a raise (`none`) absorbing. -/
def callersEntryStep (a : Option CallersFn) (e : CEntry) : Option CallersFn :=
  match a with
  | none => none
  | some m => mergeCallersEntry m e.1 e.2

/-- The callers component of a dataset flattened to single items, filenames
mapped through the path normalizer. -/
def flattenCallers (al : String → String) (d : CallersOfFiles) : List CEntry :=
  (d.map (fun p => p.2.map (fun e => (al p.1, e)))).flatten

/-- Extensional agreement of two optional callers maps (`none` = the Python
code raised in both runs). -/
def OptCallersEq : Option CallersFn → Option CallersFn → Prop
  | none, none => True
  | some a, some b => ∀ f k, a f k = b f k
  | _, _ => False

/-- Extensional agreement of two optional combine results: both raise, or
both succeed with maps agreeing at every file and key (the sense in which
two Python dict structures are `==`). -/
def OptCombEq : Option CombState → Option CombState → Prop
  | none, none => True
  | some a, some b =>
      (∀ f, a.lines f = b.lines f) ∧ (∀ f, a.arcs f = b.arcs f) ∧
      (∀ f k, a.callers f k = b.callers f k)
  | _, _ => False

/-- Python `dict.update` of an inner callers dictionary with the items of an
input dictionary (`self.callers.setdefault(filename, {}).update(callers_dict)`):
each input binding replaces any existing binding at its key. -/
def dictUpdate (old : CallersDict TestIdentifier)
    (es : List (Key × TestFinderResult TestIdentifier)) : CallersDict TestIdentifier :=
  es.foldl (fun m e => fun k => if k = e.1 then some e.2 else m k) old

/-- `CoverageData.add_callers_data`. -/
def addCallersData (c : CallersFn) (input : CallersOfFiles) : CallersFn :=
  input.foldl (fun cAcc p => fun f => if f = p.1 then dictUpdate (cAcc p.1) p.2 else cAcc f) c

/-! ## `data.py`: `_read_file` over a model of Python values

`_read_file` unpacks a pickled Python object.  Python values are modelled by
the mutual inductive `Py`; `pickle.load` either raising or producing a value
is modelled as the `Except Unit Py` input of `readFile`.  Unpickled
`TestFinderResult` objects inside the `callers` item are opaque to
`_read_file` (it copies them untouched), so representing them is not needed
for its behaviour; any `Py` value may sit there. -/

mutual
/-- A Python value, as far as `_read_file` inspects one. -/
inductive Py where
  | pynone
  | int (n : Int)
  | str (s : String)
  | list (xs : PyList)
  | tup (xs : PyList)
  | dict (es : PyPairs)
deriving DecidableEq
/-- A list of Python values. -/
inductive PyList where
  | nil
  | cons (x : Py) (xs : PyList)
deriving DecidableEq
/-- The items of a Python dictionary, in insertion order. -/
inductive PyPairs where
  | nil
  | cons (k v : Py) (es : PyPairs)
deriving DecidableEq
end

/-- Convert a `PyList` to a Lean list. -/
def PyList.toList : PyList → List Py
  | .nil => []
  | .cons x xs => x :: xs.toList

/-- Convert `PyPairs` to a Lean list of pairs. -/
def PyPairs.toList : PyPairs → List (Py × Py)
  | .nil => []
  | .cons k v es => (k, v) :: es.toList

/-- Build `PyPairs` from a Lean list of pairs. -/
def PyPairs.ofList : List (Py × Py) → PyPairs
  | [] => .nil
  | (k, v) :: es => .cons k v (PyPairs.ofList es)

/-- `isinstance(data, dict)`. -/
def Py.isDict : Py → Bool
  | .dict _ => true
  | _ => false

mutual
/-- Whether a Python value is hashable (usable as a dictionary key):
lists and dictionaries are not, tuples are iff their elements are. -/
def Py.hashable : Py → Bool
  | .list _ => false
  | .dict _ => false
  | .tup xs => xs.allHashable
  | _ => true
/-- All elements hashable. -/
def PyList.allHashable : PyList → Bool
  | .nil => true
  | .cons x xs => x.hashable && xs.allHashable
end

/-- `iitems(v)` (`v.items()`): raises unless `v` is a dictionary. -/
def pyItems : Py → Except Unit (List (Py × Py))
  | .dict es => .ok es.toList
  | _ => .error ()

/-- Python iteration over a value, as used by `dict.fromkeys`: lists and
tuples yield their elements, strings their characters, dictionaries their
keys; other values raise. -/
def pyIter : Py → Except Unit (List Py)
  | .list xs => .ok xs.toList
  | .tup xs => .ok xs.toList
  | .str s => .ok (s.toList.map (fun c => .str c.toString))
  | .dict es => .ok (es.toList.map Prod.fst)
  | _ => .error ()

/-- `d.get(k, default)` on a dictionary's items. -/
def pyGet (es : List (Py × Py)) (k default : Py) : Py :=
  match es.find? (fun e => decide (e.1 = k)) with
  | some e => e.2
  | none => default

/-- Insert a key with a value into dictionary items unless present
(the effect of `dict.fromkeys` on duplicate keys). -/
def dictInsertIfAbsent (es : List (Py × Py)) (k v : Py) : List (Py × Py) :=
  if es.any (fun e => decide (e.1 = k)) then es else es ++ [(k, v)]

/-- Set a key in dictionary items: an existing binding is updated in place,
a new key is appended (Python dictionary insertion semantics). -/
def dictSetItem (es : List (Py × Py)) (k v : Py) : List (Py × Py) :=
  if es.any (fun e => decide (e.1 = k)) then
    es.map (fun e => if e.1 = k then (k, v) else e)
  else es ++ [(k, v)]

/-- `dict.fromkeys(v, None)`: iterate `v`, each element becoming a key bound
to `None`; unhashable keys raise. -/
def pyFromkeys (v : Py) : Except Unit (List (Py × Py)) := do
  let xs ← pyIter v
  xs.foldlM (fun es k =>
    if k.hashable then pure (dictInsertIfAbsent es k .pynone) else .error ()) []

/-- `dict(list_of_pairs)`: later bindings win; unhashable keys raise. -/
def pyDictOfPairs (ps : List (Py × Py)) : Except Unit (List (Py × Py)) :=
  ps.foldlM (fun es p =>
    if p.1.hashable then pure (dictSetItem es p.1 p.2) else .error ()) []

/-- The unpacking of the `'lines'` (and, identically, `'arcs'`) item:
`dict([(f, dict.fromkeys(linenos, None)) for f, linenos in iitems(...)])`. -/
def unpackLines (v : Py) : Except Unit Py := do
  let items ← pyItems v
  let ps ← items.mapM (fun p => do
    let d ← pyFromkeys p.2
    pure (p.1, Py.dict (PyPairs.ofList d)))
  let d ← pyDictOfPairs ps
  pure (.dict (PyPairs.ofList d))

/-- The unpacking of the `'callers'` item:
`dict([(f, test_sets_map) for f, test_sets_map in iitems(...)])` — values
are copied untouched. -/
def unpackCallers (v : Py) : Except Unit Py := do
  let items ← pyItems v
  let d ← pyDictOfPairs items
  pure (.dict (PyPairs.ofList d))

/-- The empty dictionary value. -/
def pyEmptyDict : Py := .dict .nil

/-- `CoverageData._read_file`: `lines`, `arcs` and `callers` start as empty
dictionaries; inside `try`, a raising `pickle.load` or a non-dictionary
top-level value leaves all three empty; otherwise the three items are
unpacked and assigned in order, and a raise at any stage (caught by
`except Exception: pass`) keeps the assignments already made and leaves the
remaining variables empty.  The function itself never propagates an
exception. -/
def readFile (raw : Except Unit Py) : Py × Py × Py :=
  match raw with
  | .error _ => (pyEmptyDict, pyEmptyDict, pyEmptyDict)
  | .ok data =>
    match data with
    | .dict items =>
      match unpackLines (pyGet items.toList (.str "lines") pyEmptyDict) with
      | .error _ => (pyEmptyDict, pyEmptyDict, pyEmptyDict)
      | .ok L =>
        match unpackLines (pyGet items.toList (.str "arcs") pyEmptyDict) with
        | .error _ => (L, pyEmptyDict, pyEmptyDict)
        | .ok A =>
          match unpackCallers (pyGet items.toList (.str "callers") pyEmptyDict) with
          | .error _ => (L, A, pyEmptyDict)
          | .ok C => (L, A, C)
    | _ => (pyEmptyDict, pyEmptyDict, pyEmptyDict)

/-- A malformed persisted dataset: a valid `'lines'` item but an `'arcs'`
item that is not a dictionary (`iitems(5)` raises inside the `try`). -/
def malformedRaw : Py :=
  .dict (.cons (.str "lines")
    (.dict (.cons (.str "f") (.list (.cons (.int 1) .nil)) .nil))
    (.cons (.str "arcs") (.int 5) .nil))

/-! ## Sample data for the combine and callers witnesses -/

/-- A second test identifier. -/
def sampleTid2 : TestIdentifier := ⟨"t.py", 9, "test_b"⟩

/-- A sample dataset with lines, arcs and callers for one file. -/
def dsA : Dataset where
  lines := [("m.py", [.line 1, .line 2])]
  arcs := [("m.py", [.arc (-1) 1, .arc 1 2])]
  callers := [("m.py", [(.line 1, ⟨none, {sampleTid}⟩)])]

/-- A second sample dataset overlapping `dsA` at `m.py, line 1`. -/
def dsB : Dataset where
  lines := [("m.py", [.line 1, .line 3])]
  arcs := [("m.py", [.arc 2 3])]
  callers := [("m.py", [(.line 1, ⟨none, {sampleTid2}⟩), (.line 3, ⟨none, {sampleTid2}⟩)])]

/-! # Theorems -/

/-! ## C1 — restoration of the caller's context on a `return` event -/

/-- Claim C1 (code bug).  On a `return` event the tracer pops one saved
`TraceContext` but does *not* reinstate the `file_tracer` component: the
popped value is assigned to the write-only attribute `self.plugin`
(`pytracer.py` line 216) instead of `self.file_tracer`, so the callee's
file tracer stays installed.  Here: `f` (plain, in `"a.py"`) calls `g`
(plugin-traced, in `"b.py"`); after `g` returns, the tracer still holds
`g`'s plugin file tracer (the saved `none` went to `pluginAttr`), and `f`'s
next `line` event at line 5 is resolved through the plugin's
`line_number_range`, recording the bogus arc `(3, 105)` into `"a.py"`
instead of the correct `(3, 5)`. -/
theorem c1_return_leaves_callee_file_tracer :
    ∃ s', runEvents (sampleCfg true false) TracerState.init
        [.call frameF 9, .line frameF 3, .call frameGB 20, .ret frameGB, .line frameF 5] =
        some s' ∧
      s'.fileTracer = some ⟨7, "plug"⟩ ∧
      s'.pluginAttr = none ∧
      Key.arc 3 105 ∈ s'.data "a.py" ∧
      Key.arc 3 5 ∉ s'.data "a.py" := by
  refine ⟨_, rfl, by decide, by decide, by decide, by decide⟩

/-! ## C2 — the missed-return (exception-unwind) correction -/

/-- Claim C2, counterexample.  In the claimed event sequence
`call f, line f 10, call g, exception in g, line f 12, return f` with branch
mode on and `g`'s file (`"c.py"`) tracked, the synthesized terminal arc
`(-1, -20)` for `g` is *not* recorded: the guard
`if self.arcs and self.cur_file_dict:` (`pytracer.py` line 92) tests Python
truthiness, and `g`'s per-file dictionary is still empty (no `line` event
ever ran in `g`), hence falsy.  `g`'s file ends with no recorded data at
all. -/
theorem c2_missed_return_arc_lost_when_callee_dict_empty :
    ∃ s', runEvents (sampleCfg true false) TracerState.init
        [.call frameF 10, .line frameF 10, .call frameGC 20, .exc frameGC,
         .line frameF 12, .ret frameF] = some s' ∧
      Key.arc (-1) (-20) ∉ s'.data "c.py" ∧
      s'.data "c.py" = ∅ ∧
      s'.data "a.py" = {Key.arc (-1) 10, Key.arc 10 12, Key.arc 12 (-9)} ∧
      s'.dataStack = [] := by
  refine ⟨_, rfl, by decide, by decide, by decide, by decide⟩

/-- Claim C2 as amended: the synthesized terminal arc
`(last_line, -firstlineno_of_g)` is recorded (exactly once — the per-file
data is a set) only when `g`'s current per-file dictionary is truthy, i.e.
non-empty — e.g. when `g` lives in the same tracked file as `f`; the
correction pops exactly one saved context, fully restoring `f`'s context,
and only then processes `f`'s `line` event normally, so `f`'s subsequent
recording lands in `f`'s map.  After the prefix ending in `line f 12` the
data stack holds exactly the one entry saved at `call f` and the tracer is
back on `f`'s file with `last_line = 12`; the final data of `"a.py"` is
exactly `{(-1,10), (-1,-20), (10,12), (12,-9)}`. -/
theorem c2_missed_return_correction_amended :
    (∃ sMid, runEvents (sampleCfg true false) TracerState.init
        [.call frameF 10, .line frameF 10, .call frameGA 20, .exc frameGA,
         .line frameF 12] = some sMid ∧
      sMid.dataStack = [(none, none, none, 0)] ∧
      sMid.curFile = some "a.py" ∧
      sMid.fileTracer = none ∧
      sMid.lastLine = 12 ∧
      sMid.lastExcBack = none) ∧
    (∃ s', runEvents (sampleCfg true false) TracerState.init
        [.call frameF 10, .line frameF 10, .call frameGA 20, .exc frameGA,
         .line frameF 12, .ret frameF] = some s' ∧
      s'.data "a.py" =
        {Key.arc (-1) 10, Key.arc (-1) (-20), Key.arc 10 12, Key.arc 12 (-9)} ∧
      s'.dataStack = []) := by
  constructor
  · refine ⟨_, rfl, by decide, by decide, by decide, by decide, by decide⟩
  · refine ⟨_, rfl, by decide, by decide⟩


/-! ## C4 — recording on a `line` event -/

/-- Membership in the statement-mode recording range
`range(lineno_from, lineno_to + 1)`. -/
theorem mem_intRange {a b m : Int} : m ∈ intRange a b ↔ a ≤ m ∧ m ≤ b := by
  constructor
  · intro hm
    obtain ⟨i, hi, hEq⟩ := List.mem_map.mp hm
    have hi' := List.mem_range.mp hi
    omega
  · intro h
    exact List.mem_map.mpr ⟨(m - a).toNat, List.mem_range.mpr (by omega), by omega⟩

/-- With no pending missed return, the prologue of `_trace` is a no-op. -/
theorem prologue_none {cfg : Config} {s : TracerState} (fr : Frame)
    (h : s.lastExcBack = none) : tracePrologue cfg s fr = some s := by
  unfold tracePrologue
  rw [h]

/-- With caller recording off, the attribution bookkeeping of a `line`
event does nothing. -/
theorem lineWhichTests_norc {cfg : Config} {s : TracerState} (fr : Frame) (n : Int)
    (h : cfg.shouldRecordCallers = false) : lineWhichTests cfg s fr n = (s, none) := by
  unfold lineWhichTests
  simp [h]

/-- The statement-mode recording loop with no attribution to merge inserts
exactly the lines of the range into the tracked file's set. -/
theorem recordLines_none_eq (fl : String) : ∀ (ns : List Int) (s : TracerState),
    recordLines fl none s ns =
      some { s with data := fun fl' =>
        if fl' = fl then s.data fl ∪ (ns.map Key.line).toFinset else s.data fl' } := by
  intro ns
  induction ns with
  | nil =>
    intro s
    rw [recordLines]
    congr 1
    ext fl' : 2
    · by_cases hfl : fl' = fl <;> simp [hfl]
    all_goals rfl
  | cons n ns ih =>
    intro s
    rw [recordLines]
    show recordLines fl none _ ns = _
    rw [ih]
    congr 1
    ext fl' : 2
    · by_cases hfl : fl' = fl
      · subst hfl
        simp [updData, Finset.insert_union]
      · simp [updData, hfl]
    all_goals rfl

/-- Claim C4.  For a `line` event in a tracked frame (current file `fl`),
with no pending missed return and attribution recording off: if the
resolved from-line is `-1`, nothing is recorded and the tracer state is
unchanged; otherwise, in branch mode exactly the arc
`(last_line, from_line)` is added to `fl`'s set (only the first line of the
range participates), and in statement mode exactly the lines of the
inclusive range `[from_line, to_line]` are each added individually; in both
modes other files' data and the attribution maps are untouched and
`last_line` becomes `to_line`. -/
theorem c4_line_event_recording (cfg : Config) (s : TracerState) (fr : Frame) (n : Int)
    (fl : String) (hstop : s.stopped = false) (hexc : s.lastExcBack = none)
    (hfl : s.curFile = some fl) (hrc : cfg.shouldRecordCallers = false) :
    ((resolveRange cfg s fr n).1 = -1 → traceStep cfg s (.line fr n) = some s) ∧
    (cfg.arcs = true → (resolveRange cfg s fr n).1 ≠ -1 →
      ∃ s', traceStep cfg s (.line fr n) = some s' ∧
        s'.data fl = insert (Key.arc s.lastLine (resolveRange cfg s fr n).1) (s.data fl) ∧
        (∀ fl', fl' ≠ fl → s'.data fl' = s.data fl') ∧
        s'.lastLine = (resolveRange cfg s fr n).2 ∧
        s'.callersData = s.callersData) ∧
    (cfg.arcs = false → (resolveRange cfg s fr n).1 ≠ -1 →
      ∃ s', traceStep cfg s (.line fr n) = some s' ∧
        s'.data fl = s.data fl ∪
          (((intRange (resolveRange cfg s fr n).1 (resolveRange cfg s fr n).2).map
            Key.line).toFinset) ∧
        (∀ m, (resolveRange cfg s fr n).1 ≤ m → m ≤ (resolveRange cfg s fr n).2 →
          Key.line m ∈ s'.data fl) ∧
        (∀ fl', fl' ≠ fl → s'.data fl' = s.data fl') ∧
        s'.lastLine = (resolveRange cfg s fr n).2 ∧
        s'.callersData = s.callersData) := by
  have hstep : traceStep cfg s (.line fr n) = handleLine cfg s fr n := by
    unfold traceStep
    rw [hstop, prologue_none _ hexc]
    simp
  refine ⟨?_, ?_, ?_⟩
  · intro h1
    rw [hstep]
    unfold handleLine
    rw [if_pos h1]
  · intro harcs h1
    rw [hstep]
    unfold handleLine
    rw [if_neg h1, hfl, lineWhichTests_norc _ _ hrc]
    simp only [harcs, if_true]
    refine ⟨_, rfl, ?_, ?_, rfl, rfl⟩
    · simp [updData]
    · intro fl' hfl'
      simp [updData, hfl']
  · intro harcs h1
    rw [hstep]
    unfold handleLine
    rw [if_neg h1, hfl, lineWhichTests_norc _ _ hrc]
    simp only [harcs, if_false]
    rw [recordLines_none_eq]
    refine ⟨_, rfl, ?_, ?_, ?_, rfl, rfl⟩
    · simp
    · intro m hm1 hm2
      simp only [if_pos rfl]
      refine Finset.mem_union_right _ ?_
      rw [List.mem_toFinset]
      exact List.mem_map.mpr ⟨m, mem_intRange.mpr ⟨hm1, hm2⟩, rfl⟩
    · intro fl' hfl'
      simp [hfl']

/-- Witness for C4 at a concrete input: statement mode, a tracked state on
`"a.py"` with `last_line = 3`, and a `line` event at line 5 of `frameF`. -/
theorem c4_line_event_recording_witness :
    ((resolveRange (sampleCfg false false) c4State frameF 5).1 = -1 →
      traceStep (sampleCfg false false) c4State (.line frameF 5) = some c4State) ∧
    ((sampleCfg false false).arcs = true →
      (resolveRange (sampleCfg false false) c4State frameF 5).1 ≠ -1 →
      ∃ s', traceStep (sampleCfg false false) c4State (.line frameF 5) = some s' ∧
        s'.data "a.py" =
          insert (Key.arc c4State.lastLine
            (resolveRange (sampleCfg false false) c4State frameF 5).1)
            (c4State.data "a.py") ∧
        (∀ fl', fl' ≠ "a.py" → s'.data fl' = c4State.data fl') ∧
        s'.lastLine = (resolveRange (sampleCfg false false) c4State frameF 5).2 ∧
        s'.callersData = c4State.callersData) ∧
    ((sampleCfg false false).arcs = false →
      (resolveRange (sampleCfg false false) c4State frameF 5).1 ≠ -1 →
      ∃ s', traceStep (sampleCfg false false) c4State (.line frameF 5) = some s' ∧
        s'.data "a.py" = c4State.data "a.py" ∪
          (((intRange (resolveRange (sampleCfg false false) c4State frameF 5).1
            (resolveRange (sampleCfg false false) c4State frameF 5).2).map
            Key.line).toFinset) ∧
        (∀ m, (resolveRange (sampleCfg false false) c4State frameF 5).1 ≤ m →
          m ≤ (resolveRange (sampleCfg false false) c4State frameF 5).2 →
          Key.line m ∈ s'.data "a.py") ∧
        (∀ fl', fl' ≠ "a.py" → s'.data fl' = c4State.data fl') ∧
        s'.lastLine = (resolveRange (sampleCfg false false) c4State frameF 5).2 ∧
        s'.callersData = c4State.callersData) :=
  c4_line_event_recording (sampleCfg false false) c4State frameF 5 "a.py" rfl rfl rfl rfl

/-! ## C3 — stack balance over well-formed event sequences -/

/-- One step of `runEvents`. -/
theorem runEvents_cons (cfg : Config) (e : Ev) (es : List Ev) (s : TracerState) :
    runEvents cfg s (e :: es) =
      match traceStep cfg s e with
      | none => none
      | some s' => runEvents cfg s' es := rfl

/-- `runEvents` over an appended list runs the two parts in sequence. -/
theorem runEvents_append (cfg : Config) (es₁ es₂ : List Ev) :
    ∀ s, runEvents cfg s (es₁ ++ es₂) =
      match runEvents cfg s es₁ with
      | none => none
      | some s' => runEvents cfg s' es₂ := by
  induction es₁ with
  | nil => intro s; rfl
  | cons e es ih =>
    intro s
    rw [List.cons_append, runEvents_cons, runEvents_cons]
    cases traceStep cfg s e with
    | none => rfl
    | some s' => exact ih s'

/-- A successful step prepended to a run. -/
theorem runEvents_step {cfg : Config} {s s' : TracerState} {e : Ev} (es : List Ev)
    (h : traceStep cfg s e = some s') :
    runEvents cfg s (e :: es) = runEvents cfg s' es := by
  rw [runEvents_cons, h]

/-- A successful run prepended to another run. -/
theorem runEvents_some {cfg : Config} {s s' : TracerState} {es : List Ev}
    (h : runEvents cfg s es = some s') (es₂ : List Ev) :
    runEvents cfg s (es ++ es₂) = runEvents cfg s' es₂ := by
  rw [runEvents_append, h]

/-- A `call` event with no pending missed return always succeeds and runs
`handleCall`. -/
theorem traceStep_call (cfg : Config) {s : TracerState} (fr : Frame) (n : Int)
    (hstop : s.stopped = false) (hexc : s.lastExcBack = none) :
    traceStep cfg s (.call fr n) = some (handleCall cfg s fr n) := by
  unfold traceStep
  rw [hstop, prologue_none _ hexc]
  simp

/-- An `exception` event with no pending missed return always succeeds and
runs `handleExc`. -/
theorem traceStep_exc (cfg : Config) {s : TracerState} (fr : Frame)
    (hstop : s.stopped = false) (hexc : s.lastExcBack = none) :
    traceStep cfg s (.exc fr) = some (handleExc s fr) := by
  unfold traceStep
  rw [hstop, prologue_none _ hexc]
  simp

/-- A `line` event with no pending missed return runs `handleLine`. -/
theorem traceStep_line (cfg : Config) {s : TracerState} (fr : Frame) (n : Int)
    (hstop : s.stopped = false) (hexc : s.lastExcBack = none) :
    traceStep cfg s (.line fr n) = handleLine cfg s fr n := by
  unfold traceStep
  rw [hstop, prologue_none _ hexc]
  simp

/-- Every `call` event pushes exactly one saved context, and touches neither
the pending-exception marker nor the stop flag. -/
theorem handleCall_dataStack (cfg : Config) (s : TracerState) (fr : Frame) (n : Int) :
    (handleCall cfg s fr n).dataStack =
      (s.fileTracer, s.curFile, s.curCallersFile, s.lastLine) :: s.dataStack ∧
    (handleCall cfg s fr n).lastExcBack = s.lastExcBack ∧
    (handleCall cfg s fr n).stopped = s.stopped := ⟨rfl, rfl, rfl⟩

/-- With caller recording off, a `line` event never raises and leaves the
data stack, the pending-exception marker and the stop flag unchanged. -/
theorem handleLine_norc (cfg : Config) {s : TracerState} (fr : Frame) (n : Int)
    (hrc : cfg.shouldRecordCallers = false) :
    ∃ s', handleLine cfg s fr n = some s' ∧ s'.dataStack = s.dataStack ∧
      s'.lastExcBack = s.lastExcBack ∧ s'.stopped = s.stopped := by
  unfold handleLine
  by_cases h1 : (resolveRange cfg s fr n).1 = -1
  · rw [if_pos h1]
    exact ⟨s, rfl, rfl, rfl, rfl⟩
  · rw [if_neg h1]
    cases hcf : s.curFile with
    | none => exact ⟨_, rfl, rfl, rfl, rfl⟩
    | some fl =>
      rw [lineWhichTests_norc _ _ hrc]
      by_cases harcs : cfg.arcs = true
      · simp only [harcs, if_true]
        exact ⟨_, rfl, rfl, rfl, rfl⟩
      · have harcs' : cfg.arcs = false := by
          cases hb : cfg.arcs
          · rfl
          · exact absurd hb harcs
        simp only [harcs', Bool.false_eq_true, if_false]
        rw [recordLines_none_eq]
        exact ⟨_, rfl, rfl, rfl, rfl⟩

/-- The test-stack pop touches neither the data stack, the
pending-exception marker, nor the stop flag. -/
theorem popCallers_proj (cfg : Config) (s : TracerState) (fr : Frame) :
    (popCallers cfg s fr).dataStack = s.dataStack ∧
    (popCallers cfg s fr).lastExcBack = s.lastExcBack ∧
    (popCallers cfg s fr).stopped = s.stopped := by
  unfold popCallers
  split
  · cases s.callersStack with
    | nil => exact ⟨rfl, rfl, rfl⟩
    | cons t restC => exact ⟨rfl, rfl, rfl⟩
  · exact ⟨rfl, rfl, rfl⟩

/-- A `return` event on a non-empty data stack pops exactly its head. -/
theorem handleRet_pop (cfg : Config) {s : TracerState} (fr : Frame)
    {ft : Option FileTracer} {cf ccf : Option String} {ll : Int} {rest : List StackEntry}
    (hstack : s.dataStack = (ft, cf, ccf, ll) :: rest) :
    ∃ s', handleRet cfg s fr = some s' ∧ s'.dataStack = rest ∧
      s'.lastExcBack = s.lastExcBack ∧ s'.stopped = s.stopped := by
  unfold handleRet
  rw [hstack]
  refine ⟨_, rfl, ?_, ?_, ?_⟩
  · rw [(popCallers_proj _ _ _).1]
  · rw [(popCallers_proj _ _ _).2.1]
  · rw [(popCallers_proj _ _ _).2.2]

/-- The missed-return correction at an event observed in the recorded
parent frame pops exactly one saved context and clears the marker. -/
theorem prologue_correction (cfg : Config) {s : TracerState} (fr : Frame) {b : Nat}
    (hexc : s.lastExcBack = some b) (hfid : fr.fid = b)
    {ft : Option FileTracer} {cf ccf : Option String} {ll : Int} {rest : List StackEntry}
    (hstack : s.dataStack = (ft, cf, ccf, ll) :: rest) :
    ∃ s', tracePrologue cfg s fr = some s' ∧ s'.dataStack = rest ∧
      s'.lastExcBack = none ∧ s'.stopped = s.stopped := by
  unfold tracePrologue
  rw [hexc, hstack]
  simp only [hfid, eq_self_iff_true, if_true]
  exact ⟨_, rfl, rfl, rfl, rfl⟩

/-- Running a well-formed body never raises, restores the data stack to its
entry depth, and ends with no pending missed return. -/
theorem body_run (cfg : Config) (hrc : cfg.shouldRecordCallers = false) :
    ∀ {f : Frame} {es : List Ev}, Body f es → ∀ s : TracerState,
      s.stopped = false → s.lastExcBack = none →
      ∃ s', runEvents cfg s es = some s' ∧ s'.dataStack = s.dataStack ∧
        s'.lastExcBack = none ∧ s'.stopped = false := by
  intro f es hbody
  induction hbody with
  | nil f => exact fun s hstop hexc => ⟨s, rfl, rfl, hexc, hstop⟩
  | line f n hb ih =>
    intro s hstop hexc
    obtain ⟨s₁, hs₁, hd₁, he₁, hp₁⟩ := handleLine_norc cfg f n hrc (s := s)
    have hstep : traceStep cfg s (.line f n) = some s₁ := by
      rw [traceStep_line cfg f n hstop hexc]
      exact hs₁
    obtain ⟨s₂, h2, hd2, he2, hp2⟩ := ih s₁ (by rw [hp₁, hstop]) (by rw [he₁, hexc])
    refine ⟨s₂, ?_, by rw [hd2, hd₁], he2, hp2⟩
    rw [runEvents_step _ hstep]
    exact h2
  | @callRet f g n es₁ es₂ hb₁ hb₂ ih₁ ih₂ =>
    intro s hstop hexc
    have hstep₁ := traceStep_call cfg g n hstop hexc
    obtain ⟨hcd, hce, hcs⟩ := handleCall_dataStack cfg s g n
    obtain ⟨s₂, h2, hd2, he2, hp2⟩ :=
      ih₁ (handleCall cfg s g n) (by rw [hcs, hstop]) (by rw [hce, hexc])
    have hstack₂ : s₂.dataStack =
        (s.fileTracer, s.curFile, s.curCallersFile, s.lastLine) :: s.dataStack := by
      rw [hd2, hcd]
    obtain ⟨s₃, h3, hd3, he3, hp3⟩ := handleRet_pop cfg g hstack₂
    have hstep₃ : traceStep cfg s₂ (.ret g) = some s₃ := by
      unfold traceStep
      rw [hp2, prologue_none _ he2]
      simpa using h3
    obtain ⟨s₄, h4, hd4, he4, hp4⟩ :=
      ih₂ s₃ (by rw [hp3, hp2]) (by rw [he3, he2])
    refine ⟨s₄, ?_, by rw [hd4, hd3], he4, hp4⟩
    have e1 : runEvents cfg s (Ev.call g n :: es₁) = some s₂ := by
      rw [runEvents_step _ hstep₁]
      exact h2
    rw [runEvents_some e1, runEvents_step _ hstep₃]
    exact h4
  | @callExcLine f g n m hback es₁ es₂ hb₁ hb₂ ih₁ ih₂ =>
    intro s hstop hexc
    have hstep₁ := traceStep_call cfg g n hstop hexc
    obtain ⟨hcd, hce, hcs⟩ := handleCall_dataStack cfg s g n
    obtain ⟨s₂, h2, hd2, he2, hp2⟩ :=
      ih₁ (handleCall cfg s g n) (by rw [hcs, hstop]) (by rw [hce, hexc])
    have hstep₂ : traceStep cfg s₂ (.exc g) = some (handleExc s₂ g) :=
      traceStep_exc cfg g hp2 he2
    have hd₃ : (handleExc s₂ g).dataStack =
        (s.fileTracer, s.curFile, s.curCallersFile, s.lastLine) :: s.dataStack := by
      show s₂.dataStack = _
      rw [hd2, hcd]
    have he₃ : (handleExc s₂ g).lastExcBack = some f.fid := by
      show g.back = some f.fid
      exact hback
    have hp₃ : (handleExc s₂ g).stopped = false := by
      show s₂.stopped = false
      exact hp2
    obtain ⟨s₄, h4, hd4, he4, hp4⟩ :=
      prologue_correction cfg f he₃ rfl hd₃
    obtain ⟨s₅, hs₅, hd₅, he₅, hp₅⟩ := handleLine_norc cfg (s := s₄) f m hrc
    have hstep₄ : traceStep cfg (handleExc s₂ g) (.line f m) = some s₅ := by
      unfold traceStep
      rw [hp₃]
      simp only [Ev.frame]
      rw [h4]
      simpa using hs₅
    obtain ⟨s₆, h6, hd6, he6, hp6⟩ :=
      ih₂ s₅ (by rw [hp₅, hp4]; exact hp₃) (by rw [he₅, he4])
    refine ⟨s₆, ?_, ?_, he6, hp6⟩
    · have e1 : runEvents cfg s (Ev.call g n :: es₁) = some s₂ := by
        rw [runEvents_step _ hstep₁]
        exact h2
      rw [runEvents_some e1, runEvents_step _ hstep₂, runEvents_step _ hstep₄]
      exact h6
    · rw [hd6, hd₅, hd4]

/-- Claim C3.  Every `call` event pushes exactly one saved context — also
when the trace decision for the new frame's file is negative, in which case
the new frame's own context is installed empty (`file_tracer`,
`cur_file_dict`, `cur_file_callers_dict` all `None`); and for every
well-formed event sequence (grammar `Body`: calls matched by returns, or by
an exception whose correction is observed at the next event in the
enclosing frame), processing `call f; body; return f` from an empty Frame
Context Stack succeeds and leaves the stack empty. -/
theorem c3_call_pushes_and_stack_balances (cfg : Config)
    (hrc : cfg.shouldRecordCallers = false) :
    (∀ (s : TracerState) (fr : Frame) (n : Int), s.stopped = false →
      s.lastExcBack = none →
      ∃ s', traceStep cfg s (.call fr n) = some s' ∧
        s'.dataStack =
          (s.fileTracer, s.curFile, s.curCallersFile, s.lastLine) :: s.dataStack ∧
        ((cfg.shouldTrace fr.filename).trace = false →
          s'.fileTracer = none ∧ s'.curFile = none ∧ s'.curCallersFile = none)) ∧
    (∀ (f : Frame) (n : Int) (es : List Ev) (s : TracerState), Body f es →
      s.stopped = false → s.lastExcBack = none → s.dataStack = [] →
      ∃ s', runEvents cfg s (Ev.call f n :: es ++ [Ev.ret f]) = some s' ∧
        s'.dataStack = []) := by
  constructor
  · intro s fr n hstop hexc
    refine ⟨handleCall cfg s fr n, traceStep_call cfg fr n hstop hexc,
      (handleCall_dataStack cfg s fr n).1, ?_⟩
    intro htrace
    have hcn : callTracename cfg (cfg.shouldTrace fr.filename) fr = none := by
      unfold callTracename
      rw [htrace]
      simp
    refine ⟨?_, ?_, ?_⟩
    · show (if tracenameTruthy (callTracename cfg (cfg.shouldTrace fr.filename) fr) = true
        then (cfg.shouldTrace fr.filename).fileTracer else none) = none
      rw [hcn]
      rfl
    · show (if tracenameTruthy (callTracename cfg (cfg.shouldTrace fr.filename) fr) = true
        then some ((callTracename cfg (cfg.shouldTrace fr.filename) fr).getD "") else none) =
        none
      rw [hcn]
      rfl
    · show (if tracenameTruthy (callTracename cfg (cfg.shouldTrace fr.filename) fr) = true
        then some ((callTracename cfg (cfg.shouldTrace fr.filename) fr).getD "") else none) =
        none
      rw [hcn]
      rfl
  · intro f n es s hb hstop hexc hds
    obtain ⟨s₂, h2, hd2, he2, hp2⟩ := body_run cfg hrc hb (handleCall cfg s f n)
      (by rw [(handleCall_dataStack cfg s f n).2.2, hstop])
      (by rw [(handleCall_dataStack cfg s f n).2.1, hexc])
    have e1 : runEvents cfg s (Ev.call f n :: es) = some s₂ := by
      rw [runEvents_step _ (traceStep_call cfg f n hstop hexc)]
      exact h2
    have hstack₂ : s₂.dataStack =
        (s.fileTracer, s.curFile, s.curCallersFile, s.lastLine) :: s.dataStack := by
      rw [hd2, (handleCall_dataStack cfg s f n).1]
    obtain ⟨s₃, h3, hd3, he3, hp3⟩ := handleRet_pop cfg f hstack₂
    have hstep₃ : traceStep cfg s₂ (.ret f) = some s₃ := by
      unfold traceStep
      rw [hp2, prologue_none _ he2]
      simpa using h3
    refine ⟨s₃, ?_, by rw [hd3, hds]⟩
    rw [runEvents_some e1, runEvents_step _ hstep₃]
    rfl

/-- Witness for C3: a concrete well-formed run `call f; line f 3; return f`
from the initial state ends with an empty data stack. -/
theorem c3_call_pushes_and_stack_balances_witness :
    ∃ s', runEvents (sampleCfg true false) TracerState.init
      (Ev.call frameF 9 :: [Ev.line frameF 3] ++ [Ev.ret frameF]) = some s' ∧
      s'.dataStack = [] :=
  (c3_call_pushes_and_stack_balances (sampleCfg true false) rfl).2 frameF 9
    [Ev.line frameF 3] TracerState.init
    (Body.line frameF 3 (Body.nil frameF)) rfl rfl rfl

/-! ## C5 — no empty attribution entry is ever stored -/

/-- Helper for C5: every callers dictionary reachable from the empty one by
successful `merge_into_dict` steps binds its keys to results with non-empty
`test_methods` only. -/
theorem reachable_no_empty_entry : ∀ {d : CallersDict TestIdentifier}, ReachableCallers d →
    ∀ k t, d k = some t → t.testMethods ≠ ∅ := by
  intro d h
  induction h with
  | empty => intro k t hkt; simp [CallersDict.empty] at hkt
  | @step d₀ k₀ r₀ d₁ hprev hm ih =>
    intro k t hkt
    unfold mergeIntoDict at hm
    rw [ite_eq_iff] at hm
    rcases hm with ⟨_, hm⟩ | ⟨hk, hm⟩
    · exact absurd hm (by simp)
    split at hm
    · rename_i past hd
      split at hm
      · exact absurd hm (by simp)
      · rename_i m hmr
        simp only [Option.some.injEq] at hm
        subst hm
        unfold CallersDict.set at hkt
        by_cases hkk : k = k₀
        · rw [if_pos hkk] at hkt
          cases hkt
          have hpast := ih k₀ past hd
          unfold TestFinderResult.mergeR at hmr
          split at hmr
          · simp only [Option.some.injEq] at hmr
            subst hmr
            simp only [ne_eq]
            intro hemp
            rw [Finset.union_eq_empty] at hemp
            exact hpast hemp.1
          · exact absurd hmr (by simp)
        · rw [if_neg hkk] at hkt
          exact ih k t hkt
    · rename_i hd
      split at hm
      · rename_i hht
        simp only [Option.some.injEq] at hm
        subst hm
        unfold CallersDict.set at hkt
        by_cases hkk : k = k₀
        · rw [if_pos hkk] at hkt
          cases hkt
          unfold TestFinderResult.hasTests at hht
          simp only [decide_eq_true_eq] at hht
          intro hemp
          rw [hemp] at hht
          exact absurd hht (by simp)
        · rw [if_neg hkk] at hkt
          exact ih k t hkt
      · simp only [Option.some.injEq] at hm
        subst hm
        exact ih k t hkt

/-- Claim C5.  In every `AttributionMap` reachable from the empty map by
`merge_into_dict` operations, no key is bound to a `TestFinderResult` whose
`test_methods` set is empty; and merging a result with no tests at a truthy
key with no prior entry returns the map unchanged — the key stays absent. -/
theorem c5_no_empty_attribution_entry (d : CallersDict TestIdentifier)
    (h : ReachableCallers d) :
    (∀ k t, d k = some t → t.testMethods ≠ ∅) ∧
    (∀ k (r : TestFinderResult TestIdentifier), Key.truthy k → d k = none →
      r.testMethods = ∅ → mergeIntoDict d k r = some d) := by
  refine ⟨reachable_no_empty_entry h, ?_⟩
  intro k r hk hnone hemp
  unfold mergeIntoDict
  rw [if_neg (by simp [hk]), hnone]
  have hht : r.hasTests = false := by
    unfold TestFinderResult.hasTests
    simp [hemp]
  rw [hht]
  simp

/-- Witness for C5 at a concrete reachable dictionary: the entry stored at
`line 3` of `sampleCallersDict` has a non-empty test set. -/
theorem c5_no_empty_attribution_entry_witness : sampleTFR.testMethods ≠ ∅ :=
  (c5_no_empty_attribution_entry sampleCallersDict
      (@ReachableCallers.step (CallersDict.empty TestIdentifier) (Key.line 3) sampleTFR
        sampleCallersDict ReachableCallers.empty (by rfl))).1
    (Key.line 3) sampleTFR (by rfl)

/-! ## C7 — classification of test routines -/

/-- Claim C7, counterexample.  A frame whose synthetic filename marks it as
an interactively-evaluated documentation example (`<doctest mymod.func[0]>`)
but whose function name is not test-like and which has no first positional
argument is *not* classified as a test: `TestFinder._is_test_method` has no
special case for documentation examples, so the claimed third disjunct does
not exist in the code. -/
theorem c7_doctest_frame_not_a_test :
    isTestMethod "/" docFrame (get_frame_info docFrame 3) = false := by decide

/-- Claim C7 as amended: `_is_test_method` returns true exactly when the
function name is exactly `'test'` or contains the substring `'test_'`, or
the function's first positional argument exists, is truthy, and is an
instance of a configured test-case class while the frame's filename does
not lie inside the test-framework package path.  There is no special case
for documentation-example frames. -/
theorem c7_is_test_method_characterization (sep : String) (fr : Frame) (fi : FrameInfo) :
    isTestMethod sep fr fi = true ↔
      (fi.functionName = "test" ∨ List.IsInfix "test_".toList fi.functionName.toList) ∨
      (∃ fa, fr.firstArg = some fa ∧ fa.truthy = true ∧ fa.isTestCase = true ∧
        isTestFrameworkMethod sep fi = false) := by
  unfold isTestMethod
  split
  · rename_i hname
    simp only [true_iff]
    exact Or.inl hname
  · rename_i hname
    cases hfa : fr.firstArg with
    | none =>
      constructor
      · intro h; exact absurd h (by simp)
      · rintro (h | ⟨fa, hfa', _, _, _⟩)
        · exact absurd h hname
        · exact absurd hfa' (by simp)
    | some fa =>
      simp only [Bool.and_eq_true, Bool.not_eq_true']
      constructor
      · rintro ⟨⟨ht, hc⟩, hf⟩
        exact Or.inr ⟨fa, rfl, ht, hc, hf⟩
      · rintro (h | ⟨fa', hfa', ht, hc, hf⟩)
        · exact absurd h hname
        · cases hfa'
          exact ⟨⟨ht, hc⟩, hf⟩

/-! ## C8 — keying of simultaneous activations of the same test -/

/-- Claim C8, counterexample.  With a recursive invocation of the same test
function (`test_r`, code object 100, entered both times at its `def` line
5), the two activations share one `callers_line` key
`(f_code, entry frame info)`: after the inner activation's `line` event the
single shared record holds the inner line 11 (the outer's line 10 was
overwritten), and returning from the inner activation deletes the shared
record entirely — the outer activation's current-line record is not left
intact. -/
theorem c8_inner_return_destroys_outer_record :
    (∃ sMid, runEvents (sampleCfg false true) TracerState.init
        [.call frameT1 5, .line frameT1 10, .call frameT2 5, .line frameT2 11] =
        some sMid ∧
      sMid.callersStack = [(100, testInfo), (100, testInfo)] ∧
      sMid.callersLine (100, testInfo) = some ⟨"t.py", 11, 5, "test_r"⟩) ∧
    (∃ s', runEvents (sampleCfg false true) TracerState.init
        [.call frameT1 5, .line frameT1 10, .call frameT2 5, .line frameT2 11,
         .ret frameT2] = some s' ∧
      s'.callersStack = [(100, testInfo)] ∧
      s'.callersLine (100, testInfo) = none) := by
  constructor
  · refine ⟨_, rfl, by decide, by decide⟩
  · refine ⟨_, rfl, by decide, by decide⟩

/-- Claim C8 as amended: activations are keyed by the pair
`(code object, entry frame info)`, which is finer than the function name but
does not separate simultaneous activations of the same test function.  Each
activation does get its own `ActiveTestStack` entry (the stack holds one —
equal — pair per activation), but all of them share a single current-line
record; returning from the inner activation pops one stack entry and
deletes the shared record, and the outer activation's record only reappears
at its next `line` event. -/
theorem c8_activation_keying_amended :
    (∃ sMid, runEvents (sampleCfg false true) TracerState.init
        [.call frameT1 5, .line frameT1 10, .call frameT2 5] = some sMid ∧
      sMid.callersStack = [(100, testInfo), (100, testInfo)] ∧
      sMid.callersLine (100, testInfo) = some ⟨"t.py", 10, 5, "test_r"⟩) ∧
    (∃ s', runEvents (sampleCfg false true) TracerState.init
        [.call frameT1 5, .line frameT1 10, .call frameT2 5, .line frameT2 11,
         .ret frameT2, .line frameT1 12] = some s' ∧
      s'.callersStack = [(100, testInfo)] ∧
      s'.callersLine (100, testInfo) = some ⟨"t.py", 12, 5, "test_r"⟩) := by
  constructor
  · refine ⟨_, rfl, by decide, by decide⟩
  · refine ⟨_, rfl, by decide, by decide⟩

/-! ## C6 — order invariance of combining parallel datasets -/

/-- Folding over permuted lists with a step function that is congruent and
commutative with respect to an equivalence yields related results. -/
theorem foldl_perm_rel {α β : Type} (R : β → β → Prop)
    (hrefl : ∀ a, R a a) (htrans : ∀ {a b c}, R a b → R b c → R a c)
    (g : β → α → β)
    (hcong : ∀ {a b} (x : α), R a b → R (g a x) (g b x))
    (hswap : ∀ (a : β) (x y : α), R (g (g a x) y) (g (g a y) x)) :
    ∀ {l₁ l₂ : List α}, l₁.Perm l₂ → ∀ a b, R a b → R (l₁.foldl g a) (l₂.foldl g b) := by
  have hfold : ∀ (l : List α) (a b : β), R a b → R (l.foldl g a) (l.foldl g b) := by
    intro l
    induction l with
    | nil => exact fun a b h => h
    | cons x xs ih => exact fun a b h => ih _ _ (hcong x h)
  intro l₁ l₂ hperm
  induction hperm with
  | nil => exact fun a b h => h
  | cons x p ih => exact fun a b h => ih _ _ (hcong x h)
  | swap x y l =>
    intro a b h
    show R (l.foldl g (g (g a y) x)) (l.foldl g (g (g b x) y))
    exact hfold l _ _ (htrans (hswap a y x) (hcong y (hcong x h)))
  | trans p₁ p₂ ih₁ ih₂ =>
    exact fun a b h => htrans (ih₁ _ _ (hrefl _)) (ih₂ _ _ h)

/-- Two per-file line updates commute pointwise. -/
theorem applyLinesEntry_swap (al : String → String) (L : LinesFn)
    (p q : String × List Key) (f : String) :
    applyLinesEntry al (applyLinesEntry al L p) q f =
    applyLinesEntry al (applyLinesEntry al L q) p f := by
  unfold applyLinesEntry
  by_cases hpq : al p.1 = al q.1
  · by_cases hp : f = al p.1
    · simp [hp, hpq, Finset.union_assoc, Finset.union_left_comm, Finset.union_comm]
    · have hq : ¬ f = al q.1 := fun hcon => hp (hcon.trans hpq.symm)
      simp [hp, hq]
  · by_cases hp : f = al p.1 <;> by_cases hq : f = al q.1
    · exact absurd (hp.symm.trans hq) hpq
    · simp [hp, hq, hpq]
    · have hqp : ¬ al q.1 = al p.1 := fun hcon => hpq hcon.symm
      simp [hp, hq, hqp]
    · simp [hp, hq]

/-- A per-file line update is pointwise congruent. -/
theorem applyLinesEntry_congr (al : String → String) {L₁ L₂ : LinesFn}
    (h : ∀ f, L₁ f = L₂ f) (p : String × List Key) (f : String) :
    applyLinesEntry al L₁ p f = applyLinesEntry al L₂ p f := by
  unfold applyLinesEntry
  by_cases hp : f = al p.1 <;> simp [hp, h]

/-- Folding line data in any order over pointwise-equal maps yields
pointwise-equal maps. -/
theorem applyLines_perm (al : String → String) {d₁ d₂ : LinesOfFiles}
    (hperm : d₁.Perm d₂) {L₁ L₂ : LinesFn} (h : ∀ f, L₁ f = L₂ f) :
    ∀ f, applyLines al L₁ d₁ f = applyLines al L₂ d₂ f := by
  have htr : ∀ {A B C : LinesFn}, (∀ f, A f = B f) → (∀ f, B f = C f) →
      ∀ f, A f = C f := fun hab hbc f => (hab f).trans (hbc f)
  exact foldl_perm_rel (fun A B => ∀ f, A f = B f) (fun a f => rfl) htr
    (applyLinesEntry al)
    (fun {A B} p hab => @applyLinesEntry_congr al A B hab p)
    (fun A p q f => applyLinesEntry_swap al A p q f)
    hperm L₁ L₂ h

/-- Line data of two datasets folds in sequence. -/
theorem applyLines_append (al : String → String) (L : LinesFn) (d₁ d₂ : LinesOfFiles) :
    applyLines al L (d₁ ++ d₂) = applyLines al (applyLines al L d₁) d₂ :=
  List.foldl_append _ _ _ _

/-- The line data of two datasets can be folded in either order. -/
theorem applyLines_swap (al : String → String) (L : LinesFn) (d₁ d₂ : LinesOfFiles) :
    ∀ f, applyLines al (applyLines al L d₁) d₂ f = applyLines al (applyLines al L d₂) d₁ f := by
  intro f
  rw [← applyLines_append, ← applyLines_append]
  exact applyLines_perm al (List.perm_append_comm) (fun _ => rfl) f

/-- Pointwise value of a callers-map rebinding. -/
theorem updCallersAt_apply (m : CallersFn) (f : String) (k : Key)
    (u : TestFinderResult TestIdentifier) (f' : String) (k' : Key) :
    updCallersAt m f k u f' k' = if f' = f ∧ k' = k then some u else m f' k' := by
  unfold updCallersAt CallersDict.set
  by_cases h1 : f' = f <;> by_cases h2 : k' = k <;> simp [h1, h2]

/-- `merge_callers_dicts`'s per-item step, split into the resulting entry
value and the rebinding it performs. -/
theorem mergeCallersEntry_eq (m : CallersFn) (f : String)
    (e : Key × TestFinderResult TestIdentifier) :
    mergeCallersEntry m f e = (entryResultVal (m f e.1) e.2).map (updCallersAt m f e.1) := by
  unfold mergeCallersEntry entryResultVal updCallersAt TestFinderResult.mergeR
  cases m f e.1 with
  | none => rfl
  | some t =>
    by_cases h : t.lineId = e.2.lineId <;> simp [h]

/-- The nested per-file/per-item callers loops equal one fold over the
flattened items. -/
theorem applyCallers_eq_foldl (al : String → String) (d : CallersOfFiles) :
    ∀ a, applyCallers al a d = (flattenCallers al d).foldl callersEntryStep a := by
  induction d with
  | nil => intro a; rfl
  | cons p rest ih =>
    intro a
    show applyCallers al (applyCallersFile a (al p.1) p.2) rest = _
    rw [ih]
    rw [show flattenCallers al (p :: rest) =
      p.2.map (fun e => (al p.1, e)) ++ flattenCallers al rest from rfl]
    rw [List.foldl_append, List.foldl_map]
    rfl

/-- `OptCallersEq` is reflexive. -/
theorem optCallersEq_refl (a : Option CallersFn) : OptCallersEq a a := by
  cases a with
  | none => trivial
  | some m => exact fun f k => rfl

/-- `OptCallersEq` is transitive. -/
theorem optCallersEq_trans {a b c : Option CallersFn}
    (hab : OptCallersEq a b) (hbc : OptCallersEq b c) : OptCallersEq a c := by
  cases a <;> cases b <;> cases c <;>
    first
      | trivial
      | exact False.elim hab
      | exact False.elim hbc
      | exact fun f k => (hab f k).trans (hbc f k)

/-- Processing one callers item is congruent for `OptCallersEq`. -/
theorem callersEntryStep_congr {a b : Option CallersFn} (e : CEntry)
    (h : OptCallersEq a b) : OptCallersEq (callersEntryStep a e) (callersEntryStep b e) := by
  cases a <;> cases b <;> first | trivial | exact False.elim h | skip
  case some.some m₁ m₂ =>
  show OptCallersEq (mergeCallersEntry m₁ e.1 e.2) (mergeCallersEntry m₂ e.1 e.2)
  rw [mergeCallersEntry_eq, mergeCallersEntry_eq]
  rw [show m₁ e.1 e.2.1 = m₂ e.1 e.2.1 from h e.1 e.2.1]
  cases entryResultVal (m₂ e.1 e.2.1) e.2.2 with
  | none => trivial
  | some u =>
    intro f k
    rw [updCallersAt_apply, updCallersAt_apply]
    by_cases hfk : f = e.1 ∧ k = e.2.1 <;> simp [hfk, h f k]

/-- Unfolding `entryResultVal` at a missing entry. -/
theorem entryResultVal_none (r : TestFinderResult TestIdentifier) :
    entryResultVal none r = some r := rfl

/-- Unfolding `entryResultVal` at an existing entry. -/
theorem entryResultVal_some (t r : TestFinderResult TestIdentifier) :
    entryResultVal (some t) r =
      if t.lineId = r.lineId then some ⟨t.lineId, t.testMethods ∪ r.testMethods⟩
      else none := rfl

/-- Processing one callers item from a live map: compute the new entry
value, fail if the merge fails, else rebind the slot. -/
theorem callersEntryStep_some (m : CallersFn) (e : CEntry) :
    callersEntryStep (some m) e =
      match entryResultVal (m e.1 e.2.1) e.2.2 with
      | none => none
      | some u => some (updCallersAt m e.1 e.2.1 u) := by
  show mergeCallersEntry m e.1 e.2 = _
  rw [mergeCallersEntry_eq]
  cases entryResultVal (m e.1 e.2.1) e.2.2 <;> rfl

/-- Two callers items can be processed in either order: items addressing
different slots are independent, and items addressing the same slot either
both merge (the `test_methods` unions commute) or fail in both orders. -/
theorem callersEntryStep_swap (a : Option CallersFn) (x y : CEntry) :
    OptCallersEq (callersEntryStep (callersEntryStep a x) y)
      (callersEntryStep (callersEntryStep a y) x) := by
  cases a with
  | none => trivial
  | some m =>
    rw [callersEntryStep_some m x, callersEntryStep_some m y]
    by_cases hslot : y.1 = x.1 ∧ y.2.1 = x.2.1
    · obtain ⟨hf, hk⟩ := hslot
      rw [hf, hk]
      cases ht0 : m x.1 x.2.1 with
      | none =>
        rw [entryResultVal_none, entryResultVal_none]
        show OptCallersEq
          (callersEntryStep (some (updCallersAt m x.1 x.2.1 x.2.2)) y)
          (callersEntryStep (some (updCallersAt m x.1 x.2.1 y.2.2)) x)
        rw [callersEntryStep_some, callersEntryStep_some]
        simp only [updCallersAt_apply, hf, hk, eq_self_iff_true, and_self, if_true]
        rw [entryResultVal_some, entryResultVal_some]
        by_cases hl : x.2.2.lineId = y.2.2.lineId
        · rw [if_pos hl, if_pos hl.symm]
          show OptCallersEq
            (some (updCallersAt (updCallersAt m x.1 x.2.1 x.2.2) x.1 x.2.1
              ⟨x.2.2.lineId, x.2.2.testMethods ∪ y.2.2.testMethods⟩))
            (some (updCallersAt (updCallersAt m x.1 x.2.1 y.2.2) x.1 x.2.1
              ⟨y.2.2.lineId, y.2.2.testMethods ∪ x.2.2.testMethods⟩))
          intro f k
          simp only [updCallersAt_apply]
          by_cases hfk : f = x.1 ∧ k = x.2.1
          · simp only [if_pos hfk]
            rw [hl, Finset.union_comm x.2.2.testMethods y.2.2.testMethods]
          · simp only [if_neg hfk]
        · rw [if_neg hl, if_neg (fun hcon => hl hcon.symm)]
          trivial
      | some t =>
        rw [entryResultVal_some, entryResultVal_some]
        by_cases hlx : t.lineId = x.2.2.lineId <;> by_cases hly : t.lineId = y.2.2.lineId
        · rw [if_pos hlx, if_pos hly]
          show OptCallersEq
            (callersEntryStep (some (updCallersAt m x.1 x.2.1
              ⟨t.lineId, t.testMethods ∪ x.2.2.testMethods⟩)) y)
            (callersEntryStep (some (updCallersAt m x.1 x.2.1
              ⟨t.lineId, t.testMethods ∪ y.2.2.testMethods⟩)) x)
          rw [callersEntryStep_some, callersEntryStep_some]
          simp only [updCallersAt_apply, hf, hk, eq_self_iff_true, and_self, if_true]
          rw [entryResultVal_some, entryResultVal_some]
          rw [show (⟨t.lineId, t.testMethods ∪ x.2.2.testMethods⟩ :
              TestFinderResult TestIdentifier).lineId = t.lineId from rfl,
            show (⟨t.lineId, t.testMethods ∪ y.2.2.testMethods⟩ :
              TestFinderResult TestIdentifier).lineId = t.lineId from rfl]
          rw [if_pos hly, if_pos hlx]
          show OptCallersEq
            (some (updCallersAt (updCallersAt m x.1 x.2.1
              ⟨t.lineId, t.testMethods ∪ x.2.2.testMethods⟩) x.1 x.2.1
              ⟨t.lineId, t.testMethods ∪ x.2.2.testMethods ∪ y.2.2.testMethods⟩))
            (some (updCallersAt (updCallersAt m x.1 x.2.1
              ⟨t.lineId, t.testMethods ∪ y.2.2.testMethods⟩) x.1 x.2.1
              ⟨t.lineId, t.testMethods ∪ y.2.2.testMethods ∪ x.2.2.testMethods⟩))
          intro f k
          simp only [updCallersAt_apply]
          by_cases hfk : f = x.1 ∧ k = x.2.1
          · simp only [if_pos hfk]
            rw [Finset.union_right_comm t.testMethods x.2.2.testMethods y.2.2.testMethods]
          · simp only [if_neg hfk]
        · rw [if_pos hlx, if_neg hly]
          show OptCallersEq
            (callersEntryStep (some (updCallersAt m x.1 x.2.1
              ⟨t.lineId, t.testMethods ∪ x.2.2.testMethods⟩)) y) none
          rw [callersEntryStep_some]
          simp only [updCallersAt_apply, hf, hk, eq_self_iff_true, and_self, if_true]
          rw [entryResultVal_some]
          rw [show (⟨t.lineId, t.testMethods ∪ x.2.2.testMethods⟩ :
              TestFinderResult TestIdentifier).lineId = t.lineId from rfl]
          rw [if_neg hly]
          trivial
        · rw [if_neg hlx, if_pos hly]
          show OptCallersEq none
            (callersEntryStep (some (updCallersAt m x.1 x.2.1
              ⟨t.lineId, t.testMethods ∪ y.2.2.testMethods⟩)) x)
          rw [callersEntryStep_some]
          simp only [updCallersAt_apply, hf, hk, eq_self_iff_true, and_self, if_true]
          rw [entryResultVal_some]
          rw [show (⟨t.lineId, t.testMethods ∪ y.2.2.testMethods⟩ :
              TestFinderResult TestIdentifier).lineId = t.lineId from rfl]
          rw [if_neg hlx]
          trivial
        · rw [if_neg hlx, if_neg hly]
          trivial
    · have hslot' : ¬ (x.1 = y.1 ∧ x.2.1 = y.2.1) :=
        fun hcon => hslot ⟨hcon.1.symm, hcon.2.symm⟩
      cases hex : entryResultVal (m x.1 x.2.1) x.2.2 with
      | none =>
        cases hey : entryResultVal (m y.1 y.2.1) y.2.2 with
        | none => trivial
        | some uy =>
          show OptCallersEq none
            (callersEntryStep (some (updCallersAt m y.1 y.2.1 uy)) x)
          rw [callersEntryStep_some]
          rw [updCallersAt_apply]
          rw [if_neg hslot', hex]
          trivial
      | some ux =>
        cases hey : entryResultVal (m y.1 y.2.1) y.2.2 with
        | none =>
          show OptCallersEq
            (callersEntryStep (some (updCallersAt m x.1 x.2.1 ux)) y) none
          rw [callersEntryStep_some]
          rw [updCallersAt_apply]
          rw [if_neg hslot, hey]
          trivial
        | some uy =>
          show OptCallersEq
            (callersEntryStep (some (updCallersAt m x.1 x.2.1 ux)) y)
            (callersEntryStep (some (updCallersAt m y.1 y.2.1 uy)) x)
          rw [callersEntryStep_some, callersEntryStep_some]
          rw [updCallersAt_apply, updCallersAt_apply]
          rw [if_neg hslot, if_neg hslot', hex, hey]
          show OptCallersEq
            (some (updCallersAt (updCallersAt m x.1 x.2.1 ux) y.1 y.2.1 uy))
            (some (updCallersAt (updCallersAt m y.1 y.2.1 uy) x.1 x.2.1 ux))
          intro f k
          simp only [updCallersAt_apply]
          by_cases hfy : f = y.1 ∧ k = y.2.1 <;> by_cases hfx : f = x.1 ∧ k = x.2.1
          · exact absurd ⟨hfy.1.symm.trans hfx.1, hfy.2.symm.trans hfx.2⟩ hslot
          · simp only [if_pos hfy, if_neg hfx]
          · simp only [if_neg hfy, if_pos hfx]
          · simp only [if_neg hfy, if_neg hfx]

/-- Callers items can be folded in any order, modulo `OptCallersEq`. -/
theorem applyCallers_perm {l₁ l₂ : List CEntry} (hperm : l₁.Perm l₂)
    {a b : Option CallersFn} (h : OptCallersEq a b) :
    OptCallersEq (l₁.foldl callersEntryStep a) (l₂.foldl callersEntryStep b) :=
  foldl_perm_rel OptCallersEq optCallersEq_refl
    (fun hab hbc => optCallersEq_trans hab hbc)
    callersEntryStep (fun e h => callersEntryStep_congr e h) callersEntryStep_swap
    hperm a b h

/-- A raise is absorbing for the callers fold. -/
theorem foldl_callersEntryStep_none (l : List CEntry) :
    l.foldl callersEntryStep none = none := by
  induction l with
  | nil => rfl
  | cons e es ih => exact ih

/-- A raise is absorbing for `applyCallers`. -/
theorem applyCallers_none (al : String → String) (d : CallersOfFiles) :
    applyCallers al none d = none := by
  rw [applyCallers_eq_foldl]
  exact foldl_callersEntryStep_none _

/-- `OptCombEq` is reflexive. -/
theorem optCombEq_refl (a : Option CombState) : OptCombEq a a := by
  cases a with
  | none => trivial
  | some s => exact ⟨fun f => rfl, fun f => rfl, fun f k => rfl⟩

/-- `OptCombEq` is symmetric. -/
theorem optCombEq_symm {a b : Option CombState} (h : OptCombEq a b) : OptCombEq b a := by
  cases a <;> cases b <;> first | trivial | exact False.elim h | skip
  case some.some s₁ s₂ =>
  exact ⟨fun f => (h.1 f).symm, fun f => (h.2.1 f).symm, fun f k => (h.2.2 f k).symm⟩

/-- `OptCombEq` is transitive. -/
theorem optCombEq_trans {a b c : Option CombState}
    (hab : OptCombEq a b) (hbc : OptCombEq b c) : OptCombEq a c := by
  cases a <;> cases b <;> cases c <;>
    first
      | trivial
      | exact False.elim hab
      | exact False.elim hbc
      | exact ⟨fun f => (hab.1 f).trans (hbc.1 f), fun f => (hab.2.1 f).trans (hbc.2.1 f),
          fun f k => (hab.2.2 f k).trans (hbc.2.2 f k)⟩

/-- `applyLines` is pointwise congruent. -/
theorem applyLines_congr (al : String → String) {L₁ L₂ : LinesFn}
    (h : ∀ f, L₁ f = L₂ f) (d : LinesOfFiles) :
    ∀ f, applyLines al L₁ d f = applyLines al L₂ d f :=
  applyLines_perm al (List.Perm.refl d) h

/-- `applyCallers` is congruent for `OptCallersEq`. -/
theorem applyCallers_congr (al : String → String) {a b : Option CallersFn}
    (h : OptCallersEq a b) (d : CallersOfFiles) :
    OptCallersEq (applyCallers al a d) (applyCallers al b d) := by
  rw [applyCallers_eq_foldl, applyCallers_eq_foldl]
  exact applyCallers_perm (List.Perm.refl _) h

/-- Folding one dataset into the accumulated state is congruent for
`OptCombEq`. -/
theorem combineStep_congr (al : String → String) {a b : Option CombState} (d : Dataset)
    (h : OptCombEq a b) : OptCombEq (combineStep al a d) (combineStep al b d) := by
  cases a <;> cases b <;> first | trivial | exact False.elim h | skip
  case some.some s₁ s₂ =>
  obtain ⟨hl, ha, hc⟩ := h
  have hcc : OptCallersEq (some s₁.callers) (some s₂.callers) := fun f k => hc f k
  have hcal : OptCallersEq (applyCallers al (some s₁.callers) d.callers)
      (applyCallers al (some s₂.callers) d.callers) :=
    applyCallers_congr al hcc d.callers
  show OptCombEq
    (match applyCallers al (some s₁.callers) d.callers with
     | none => none
     | some c => some ⟨applyLines al s₁.lines d.lines, applyLines al s₁.arcs d.arcs, c⟩)
    (match applyCallers al (some s₂.callers) d.callers with
     | none => none
     | some c => some ⟨applyLines al s₂.lines d.lines, applyLines al s₂.arcs d.arcs, c⟩)
  cases h₁ : applyCallers al (some s₁.callers) d.callers with
  | none =>
    cases h₂ : applyCallers al (some s₂.callers) d.callers with
    | none => trivial
    | some c₂ => rw [h₁, h₂] at hcal; exact False.elim hcal
  | some c₁ =>
    cases h₂ : applyCallers al (some s₂.callers) d.callers with
    | none => rw [h₁, h₂] at hcal; exact False.elim hcal
    | some c₂ =>
      rw [h₁, h₂] at hcal
      exact ⟨fun f => applyLines_congr al hl d.lines f,
        fun f => applyLines_congr al ha d.arcs f, fun f k => hcal f k⟩

/-- Folding two datasets in sequence: the callers result is the fold over
the two flattened item lists concatenated, the lines and arcs results are
the two sequential updates. -/
theorem combineStep2_char (al : String → String) (s : CombState) (dx dy : Dataset) :
    OptCombEq (combineStep al (combineStep al (some s) dx) dy)
      (match (flattenCallers al dx.callers ++ flattenCallers al dy.callers).foldl
          callersEntryStep (some s.callers) with
       | none => none
       | some c => some ⟨applyLines al (applyLines al s.lines dx.lines) dy.lines,
           applyLines al (applyLines al s.arcs dx.arcs) dy.arcs, c⟩) := by
  rw [List.foldl_append, ← applyCallers_eq_foldl, ← applyCallers_eq_foldl]
  have hun : combineStep al (some s) dx =
      match applyCallers al (some s.callers) dx.callers with
      | none => none
      | some c => some ⟨applyLines al s.lines dx.lines, applyLines al s.arcs dx.arcs, c⟩ := rfl
  rw [hun]
  cases hx : applyCallers al (some s.callers) dx.callers with
  | none =>
    rw [applyCallers_none]
    exact optCombEq_refl none
  | some c₁ =>
    exact optCombEq_refl _

/-- Two datasets can be folded in either order, modulo `OptCombEq`. -/
theorem combineStep_swap (al : String → String) (a : Option CombState) (dx dy : Dataset) :
    OptCombEq (combineStep al (combineStep al a dx) dy)
      (combineStep al (combineStep al a dy) dx) := by
  cases a with
  | none => trivial
  | some s =>
    refine optCombEq_trans (combineStep2_char al s dx dy)
      (optCombEq_trans ?_ (optCombEq_symm (combineStep2_char al s dy dx)))
    have hcal : OptCallersEq
        ((flattenCallers al dx.callers ++ flattenCallers al dy.callers).foldl
          callersEntryStep (some s.callers))
        ((flattenCallers al dy.callers ++ flattenCallers al dx.callers).foldl
          callersEntryStep (some s.callers)) :=
      applyCallers_perm List.perm_append_comm (optCallersEq_refl _)
    cases h₁ : (flattenCallers al dx.callers ++ flattenCallers al dy.callers).foldl
        callersEntryStep (some s.callers) with
    | none =>
      cases h₂ : (flattenCallers al dy.callers ++ flattenCallers al dx.callers).foldl
          callersEntryStep (some s.callers) with
      | none => trivial
      | some c₂ => rw [h₁, h₂] at hcal; exact False.elim hcal
    | some c₁ =>
      cases h₂ : (flattenCallers al dy.callers ++ flattenCallers al dx.callers).foldl
          callersEntryStep (some s.callers) with
      | none => rw [h₁, h₂] at hcal; exact False.elim hcal
      | some c₂ =>
        rw [h₁, h₂] at hcal
        exact ⟨fun f => applyLines_swap al s.lines dx.lines dy.lines f,
          fun f => applyLines_swap al s.arcs dx.arcs dy.arcs f, fun f k => hcal f k⟩

/-- An aborted combine stays aborted. -/
theorem foldl_combineStep_none (al : String → String) (ds : List Dataset) :
    ds.foldl (combineStep al) none = none := by
  induction ds with
  | nil => rfl
  | cons d rest ih => exact ih

/-- Claim C6.  Combining datasets is commutative and associative: for any
path normalizer and initial state, combining any permutation of a list of
datasets yields an identical consolidated `CoverageMap` (`lines` and
`arcs`: entry-wise union of per-file key sets) and an identical
`AttributionMap` (per-key union of result sets) — and when a merge raises
(diverging `line_id`s at a shared key), every order raises; moreover
combining a concatenation equals combining the parts in sequence. -/
theorem c6_combine_order_invariant (al : String → String) (s₀ : CombState)
    (l₁ l₂ : List Dataset) (hperm : l₁.Perm l₂) :
    OptCombEq (combineParallelData al s₀ l₁) (combineParallelData al s₀ l₂) ∧
    (∀ ds₁ ds₂ : List Dataset,
      combineParallelData al s₀ (ds₁ ++ ds₂) =
        match combineParallelData al s₀ ds₁ with
        | none => none
        | some s => combineParallelData al s ds₂) := by
  constructor
  · exact foldl_perm_rel OptCombEq optCombEq_refl
      (fun hab hbc => optCombEq_trans hab hbc) (combineStep al)
      (fun d h => combineStep_congr al d h)
      (fun a dx dy => combineStep_swap al a dx dy)
      hperm (some s₀) (some s₀) (optCombEq_refl _)
  · intro ds₁ ds₂
    show (ds₁ ++ ds₂).foldl (combineStep al) (some s₀) =
      match ds₁.foldl (combineStep al) (some s₀) with
      | none => none
      | some s => ds₂.foldl (combineStep al) (some s)
    rw [List.foldl_append]
    cases h : ds₁.foldl (combineStep al) (some s₀) with
    | none => exact foldl_combineStep_none al ds₂
    | some s => rfl

/-- Witness for C6 at two concrete overlapping datasets combined in both
orders. -/
theorem c6_combine_order_invariant_witness :
    OptCombEq (combineParallelData id CombState.empty [dsA, dsB])
      (combineParallelData id CombState.empty [dsB, dsA]) ∧
    (∀ ds₁ ds₂ : List Dataset,
      combineParallelData id CombState.empty (ds₁ ++ ds₂) =
        match combineParallelData id CombState.empty ds₁ with
        | none => none
        | some s => combineParallelData id s ds₂) :=
  c6_combine_order_invariant id CombState.empty [dsA, dsB] [dsB, dsA] (by decide)

/-! ## C9 — reading a malformed persisted dataset -/

/-- Claim C9, counterexample.  A persisted dataset whose deserialization
succeeds and whose top level is a dictionary, but whose `'arcs'` item is the
integer `5` (malformed — not the documented filename-to-pairs mapping):
`_read_file` does *not* return three empty maps; the `'lines'` item was
unpacked and assigned before `iitems(5)` raised, so the parsed lines are
kept and only `arcs` and `callers` are empty. -/
theorem c9_malformed_dataset_kept_partially :
    readFile (.ok malformedRaw) =
      (.dict (.cons (.str "f") (.dict (.cons (.int 1) .pynone .nil)) .nil),
       pyEmptyDict, pyEmptyDict) ∧
    readFile (.ok malformedRaw) ≠ (pyEmptyDict, pyEmptyDict, pyEmptyDict) := by
  constructor <;> decide

/-- Claim C9 as amended: `_read_file` never propagates an exception (it is a
total function here); when deserialization raises, or when the deserialized
top-level value is not a dictionary, it returns three empty maps; a failure
while unpacking an inner item instead keeps the items already assigned and
leaves the failing and subsequent ones empty. -/
theorem c9_read_file_amended (raw : Except Unit Py) :
    (∀ e, raw = .error e → readFile raw = (pyEmptyDict, pyEmptyDict, pyEmptyDict)) ∧
    (∀ p, raw = .ok p → p.isDict = false →
      readFile raw = (pyEmptyDict, pyEmptyDict, pyEmptyDict)) := by
  constructor
  · rintro e rfl
    rfl
  · rintro p rfl hp
    cases p <;> first | rfl | simp [Py.isDict] at hp

/-- Witness for C9 at concrete inputs: a raising load and a non-dictionary
value both produce three empty maps. -/
theorem c9_read_file_amended_witness :
    readFile (.error ()) = (pyEmptyDict, pyEmptyDict, pyEmptyDict) ∧
    readFile (.ok (.int 7)) = (pyEmptyDict, pyEmptyDict, pyEmptyDict) :=
  ⟨(c9_read_file_amended (.error ())).1 () rfl,
   (c9_read_file_amended (.ok (.int 7))).2 (.int 7) rfl (by decide)⟩

/-! ## C10 — `add_callers_data` replaces, `combine_parallel_data` unions -/

/-- `dict.update` semantics of `dictUpdate`: the result at a key is the last
binding of the items if any, else the old binding. -/
theorem dictUpdate_lookup (k : Key) :
    ∀ (es : List (Key × TestFinderResult TestIdentifier)) (old : CallersDict TestIdentifier),
      dictUpdate old es k =
        match dictUpdate (CallersDict.empty TestIdentifier) es k with
        | some v => some v
        | none => old k := by
  intro es
  induction es with
  | nil => intro old; simp [dictUpdate, CallersDict.empty]
  | cons e es ih =>
    intro old
    show dictUpdate (fun k' => if k' = e.1 then some e.2 else old k') es k = _
    rw [ih]
    conv_rhs =>
      rw [show dictUpdate (CallersDict.empty TestIdentifier) (e :: es) k =
        dictUpdate (fun k' => if k' = e.1 then some e.2 else CallersDict.empty TestIdentifier k')
          es k from rfl]
    rw [ih (fun k' => if k' = e.1 then some e.2 else CallersDict.empty TestIdentifier k')]
    cases hdu : dictUpdate (CallersDict.empty TestIdentifier) es k with
    | some v => rfl
    | none =>
      by_cases hk : k = e.1 <;> simp [hk, CallersDict.empty]

/-- `add_callers_data` leaves files that the input does not mention
untouched. -/
theorem addCallersData_not_mem (f : String) (k : Key) :
    ∀ (input : CallersOfFiles) (c : CallersFn), f ∉ input.map Prod.fst →
      addCallersData c input f k = c f k := by
  intro input
  induction input with
  | nil => intro c _; rfl
  | cons p rest ih =>
    intro c hf
    simp only [List.map_cons, List.mem_cons, not_or] at hf
    show addCallersData (fun f' => if f' = p.1 then dictUpdate (c p.1) p.2 else c f') rest f k =
      c f k
    rw [ih _ hf.2]
    simp [hf.1]

/-- The replacement behaviour of `add_callers_data` at one file of the
input. -/
theorem addCallersData_replaces (f : String)
    (inner : List (Key × TestFinderResult TestIdentifier))
    (k : Key) (r : TestFinderResult TestIdentifier)
    (hk : dictUpdate (CallersDict.empty TestIdentifier) inner k = some r) :
    ∀ (input : CallersOfFiles) (c : CallersFn), (input.map Prod.fst).Nodup →
      (f, inner) ∈ input → addCallersData c input f k = some r := by
  intro input
  induction input with
  | nil => intro c _ hmem; cases hmem
  | cons p rest ih =>
    intro c hnd hmem
    simp only [List.map_cons, List.nodup_cons] at hnd
    show addCallersData (fun f' => if f' = p.1 then dictUpdate (c p.1) p.2 else c f') rest f k =
      some r
    rcases List.mem_cons.mp hmem with heq | hrest
    · have hp1 : p.1 = f := by rw [← heq]
      rw [addCallersData_not_mem _ _ _ _ (by rw [hp1] at hnd; exact hnd.1)]
      rw [if_pos hp1.symm, hp1]
      have hp2 : p.2 = inner := by rw [← heq]
      rw [hp2, dictUpdate_lookup, hk]
    · exact ih _ hnd.2 hrest

/-- Claim C10.  `add_callers_data` does not union attribution: every
`(file, key)` pair bound in the input ends up bound to exactly the input's
result, replacing any previously stored entry — whereas the per-entry merge
used by `combine_parallel_data` at an already-bound key unions the
`test_methods` sets of the existing and incoming results. -/
theorem c10_add_callers_replaces_not_merges (c : CallersFn) (input : CallersOfFiles)
    (f : String) (inner : List (Key × TestFinderResult TestIdentifier))
    (k : Key) (r : TestFinderResult TestIdentifier)
    (hnd : (input.map Prod.fst).Nodup) (hmem : (f, inner) ∈ input)
    (hk : dictUpdate (CallersDict.empty TestIdentifier) inner k = some r) :
    addCallersData c input f k = some r ∧
    (∀ (m : CallersFn) (t u : TestFinderResult TestIdentifier), m f k = some t →
      t.mergeR r = some u →
      ∃ m', mergeCallersEntry m f (k, r) = some m' ∧
        m' f k = some ⟨t.lineId, t.testMethods ∪ r.testMethods⟩) := by
  refine ⟨addCallersData_replaces f inner k r hk input c hnd hmem, ?_⟩
  intro m t u hm hmr
  have hu : u = ⟨t.lineId, t.testMethods ∪ r.testMethods⟩ := by
    unfold TestFinderResult.mergeR at hmr
    split at hmr
    · simp only [Option.some.injEq] at hmr
      exact hmr.symm
    · exact absurd hmr (by simp)
  refine ⟨fun f' => if f' = f then (m f).set k (some u) else m f', ?_, ?_⟩
  · have hme : mergeCallersEntry m f (k, r) =
        match m f k with
        | none => some (fun f' => if f' = f then (m f).set k (some r) else m f')
        | some t =>
          match t.mergeR r with
          | none => none
          | some u => some (fun f' => if f' = f then (m f).set k (some u) else m f') := rfl
    rw [hme, hm]
    simp only [hmr]
  · show (if f = f then (m f).set k (some u) else m f) k =
      some ⟨t.lineId, t.testMethods ∪ r.testMethods⟩
    rw [if_pos rfl]
    unfold CallersDict.set
    rw [if_pos rfl, hu]

/-- Witness for C10: an input binding `m.py, line 1` twice (last binding
wins, as for a Python dictionary) replaces the entry stored at that key. -/
theorem c10_add_callers_replaces_not_merges_witness :
    addCallersData CombState.empty.callers
        [("m.py", [(Key.line 1, ⟨none, {sampleTid}⟩), (Key.line 1, ⟨none, {sampleTid2}⟩)])]
        "m.py" (Key.line 1) = some ⟨none, {sampleTid2}⟩ ∧
    (∀ (m : CallersFn) (t u : TestFinderResult TestIdentifier),
      m "m.py" (Key.line 1) = some t →
      t.mergeR ⟨none, {sampleTid2}⟩ = some u →
      ∃ m', mergeCallersEntry m "m.py" (Key.line 1, ⟨none, {sampleTid2}⟩) = some m' ∧
        m' "m.py" (Key.line 1) = some ⟨t.lineId, t.testMethods ∪ {sampleTid2}⟩) :=
  c10_add_callers_replaces_not_merges CombState.empty.callers
    [("m.py", [(Key.line 1, ⟨none, {sampleTid}⟩), (Key.line 1, ⟨none, {sampleTid2}⟩)])]
    "m.py" [(Key.line 1, ⟨none, {sampleTid}⟩), (Key.line 1, ⟨none, {sampleTid2}⟩)]
    (Key.line 1) ⟨none, {sampleTid2}⟩ (by decide) (by decide) (by decide)

end Coverage
